import Mathlib

/-!
Verification of the viewport/physics/tile-generation engine of the porto-v2
repository (the `InfiniteImageGrid` component and its collaborators
`GridItemContainer`, `GridVideoContent`, `Overlay`).

The embedding models:
* the tile lattice (`calculateDimensions`, `getItemForPosition`,
  `getNextPottery`, `shuffleArray`, `updateVisibleItems`) over `ℚ`/`ℤ`,
  with the component's mutable refs (`stableGrid`, `shuffledPottery`,
  `potteryIndex`) passed as explicit state;
* the camera/physics engine (`startAnimation`'s per-frame body,
  `updateVelocity`, the mouse handlers) over `ℝ` (JavaScript numbers are
  modelled as exact reals; `Math.hypot` becomes `Real.sqrt`);
* the tile focus controller (`GridItemContainer`) and the video upgrade
  delay (`GridVideoContent`) as boolean state machines driven by event
  and millisecond-tick traces.
-/

namespace Porto

/-! ### Tile catalog data (`PotteryItem` in InfiniteImageGrid.tsx) -/

/-- A catalog record, as in the `PotteryItem` interface. -/
structure PotteryItem where
  id : ℤ
  title : String
  description : String
  author : String
  img : String
  type : Option String
  thumbnail : Option String
deriving DecidableEq

/-- Stand-in for JavaScript `undefined` when indexing past an array end. -/
def undefinedPottery : PotteryItem :=
  ⟨0, "", "", "", "", none, none⟩

/-! ### Dimension configuration (`calculateDimensions`) -/

/-- The four dimension refs `itemWidth`, `itemHeight`, `gapX`, `gapY`. -/
structure Dims where
  itemWidth : ℚ
  itemHeight : ℚ
  gapX : ℚ
  gapY : ℚ
deriving DecidableEq

/-- `calculateDimensions(viewportHeight, viewportWidth)`: mobile preset for
width ≤ 768 (card height = vh/4, gap ratio 0.25), desktop otherwise
(card height = vh/2.5, gap ratio 0.320); width = height · 476/593. -/
def calculateDimensions (viewportHeight viewportWidth : ℚ) : Dims :=
  if viewportWidth ≤ 768 then
    let cardHeight := viewportHeight / 4
    ⟨cardHeight * (476 / 593), cardHeight, cardHeight * (25 / 100), cardHeight * (25 / 100)⟩
  else
    let cardHeight := viewportHeight / (25 / 10)
    ⟨cardHeight * (476 / 593), cardHeight, cardHeight * (320 / 1000), cardHeight * (320 / 1000)⟩

/-- `getItemSpacingX()` = itemWidth + gapX. -/
def getItemSpacingX (d : Dims) : ℚ := d.itemWidth + d.gapX

/-- `getItemSpacingY()` = itemHeight + gapY. -/
def getItemSpacingY (d : Dims) : ℚ := d.itemHeight + d.gapY

/-- `getZigzagOffset()` = getItemSpacingY() · 0.5. -/
def getZigzagOffset (d : Dims) : ℚ := getItemSpacingY d * (5 / 10)

/-! ### Zigzag column predicate (`getItemForPosition`, line
`const isStaggeredCol = Math.abs(gridCol) % 2 === 0`) -/

/-- `Math.abs(gridCol) % 2 === 0`. -/
def isStaggeredCol (gridCol : ℤ) : Bool := gridCol.natAbs % 2 == 0

/-- World x of the tile at a lattice column: `gridCol * getItemSpacingX()`. -/
def itemWorldX (d : Dims) (gridCol : ℤ) : ℚ := gridCol * getItemSpacingX d

/-- World y of a tile: `gridRow * getItemSpacingY() + colOffsetY` with the
zigzag offset on staggered columns. -/
def itemWorldY (d : Dims) (gridCol gridRow : ℤ) : ℚ :=
  gridRow * getItemSpacingY d + (if isStaggeredCol gridCol then getZigzagOffset d else 0)

/-! ### Grid items and the lattice cache -/

/-- A cached `GridItem`: the string key `"{col}-{row}"` is modelled by the
integer pair itself. -/
structure GridItem where
  col : ℤ
  row : ℤ
  x : ℚ
  y : ℚ
  width : ℚ
  height : ℚ
  pottery : PotteryItem
deriving DecidableEq

/-- The mutable refs of the lattice: `stableGrid` (coordinate → item cache,
as an association list), `shuffledPottery`, `potteryIndex`, plus a counter
of reshuffles so that each reshuffle draws fresh randomness. -/
structure GridState where
  stableGrid : List ((ℤ × ℤ) × GridItem)
  shuffledPottery : List PotteryItem
  potteryIndex : ℕ
  shuffleEpoch : ℕ
deriving DecidableEq

/-- Swap two positions of a list (the destructuring swap in Fisher–Yates). -/
def swapAt (l : List α) (i j : ℕ) : List α :=
  match l.get? i, l.get? j with
  | some a, some b => (l.set i b).set j a
  | _, _ => l

/-- One backwards pass of Fisher–Yates: `rand i` models
`Math.floor(Math.random() * (i + 1))`, reduced mod (i+1) so that the model
never indexes out of range. -/
def fisherYatesAux (rand : ℕ → ℕ) (l : List α) : ℕ → List α
  | 0 => l
  | Nat.succ i => fisherYatesAux rand (swapAt l (i + 1) (rand (i + 1) % (i + 2))) i

/-- `shuffleArray`: Fisher–Yates over a copy, iterating i from length−1 down
to 1. -/
def shuffleArray (rand : ℕ → ℕ) (l : List α) : List α :=
  match l.length with
  | 0 => l
  | Nat.succ n => fisherYatesAux rand l n

/-- `getNextPottery()`: reshuffle and reset the cursor when the shuffled
array is exhausted, then return `shuffledPottery[potteryIndex++]`.
`potteryData` is the external catalog; `oracle e` supplies the randomness
of the e-th reshuffle. -/
def getNextPottery (potteryData : List PotteryItem) (oracle : ℕ → ℕ → ℕ)
    (s : GridState) : PotteryItem × GridState :=
  let s :=
    if s.shuffledPottery.length ≤ s.potteryIndex then
      { s with shuffledPottery := shuffleArray (oracle s.shuffleEpoch) potteryData,
               potteryIndex := 0, shuffleEpoch := s.shuffleEpoch + 1 }
    else s
  (s.shuffledPottery.getD s.potteryIndex undefinedPottery,
   { s with potteryIndex := s.potteryIndex + 1 })

/-- `getItemForPosition(gridCol, gridRow)`: return the cached item if the
key is present; otherwise derive position and size, draw the next pottery
record, cache the new item and return it. -/
def getItemForPosition (d : Dims) (potteryData : List PotteryItem) (oracle : ℕ → ℕ → ℕ)
    (s : GridState) (gridCol gridRow : ℤ) : GridItem × GridState :=
  match s.stableGrid.lookup (gridCol, gridRow) with
  | some item => (item, s)
  | none =>
    let width := d.itemWidth
    let height := d.itemHeight
    let colOffsetY := if isStaggeredCol gridCol then getZigzagOffset d else 0
    let x := (gridCol : ℚ) * getItemSpacingX d
    let y := (gridRow : ℚ) * getItemSpacingY d + colOffsetY
    let p := getNextPottery potteryData oracle s
    let item : GridItem := ⟨gridCol, gridRow, x, y, width, height, p.1⟩
    (item, { p.2 with stableGrid := ((gridCol, gridRow), item) :: p.2.stableGrid })

end Porto

/-- C4: the zigzag predicate used for world-y placement is `|col| mod 2 == 0`,
it alternates with period 2 across all integers (including negatives), and
columns −4,−3,−2,−1,0,1 show the offset pattern on,off,on,off,on,off. -/
theorem Porto.C4_zigzag_period_two :
    (∀ c : ℤ, Porto.isStaggeredCol (c + 2) = Porto.isStaggeredCol c) ∧
    (∀ c : ℤ, (Porto.isStaggeredCol c = true) ↔ c.natAbs % 2 = 0) ∧
    Porto.isStaggeredCol (-4) = true ∧ Porto.isStaggeredCol (-3) = false ∧
    Porto.isStaggeredCol (-2) = true ∧ Porto.isStaggeredCol (-1) = false ∧
    Porto.isStaggeredCol 0 = true ∧ Porto.isStaggeredCol 1 = false := by
  refine ⟨fun c => ?_, fun c => ?_, by decide, by decide, by decide, by decide, by decide, by decide⟩
  · have h : (c + 2).natAbs % 2 = c.natAbs % 2 := by omega
    simp only [Porto.isStaggeredCol, h]
  · simp [Porto.isStaggeredCol]

/-- C6: tile resolution is idempotent. Resolving a coordinate and then
resolving it again (before any dimension change) returns the identical
item and leaves the whole lattice state unchanged, so a coordinate already
in the cache re-derives to a bit-identical result. -/
theorem Porto.C6_getItemForPosition_idempotent
    (d : Porto.Dims) (potteryData : List Porto.PotteryItem) (oracle : ℕ → ℕ → ℕ)
    (s : Porto.GridState) (gridCol gridRow : ℤ) :
    Porto.getItemForPosition d potteryData oracle
        (Porto.getItemForPosition d potteryData oracle s gridCol gridRow).2 gridCol gridRow
      = Porto.getItemForPosition d potteryData oracle s gridCol gridRow := by
  unfold Porto.getItemForPosition
  cases h : s.stableGrid.lookup (gridCol, gridRow) with
  | some item => simp [h]
  | none => simp [h, List.lookup]

namespace Porto

/-! ### Viewport culler (`updateVisibleItems`) -/

/-- The culling buffer: `const buffer = 500`. -/
def buffer : ℚ := 500

/-- The integers from `lo` to `hi` inclusive (empty when `hi < lo`). -/
def intRange (lo hi : ℤ) : List ℤ :=
  (List.range (hi + 1 - lo).toNat).map fun n : ℕ => lo + (n : ℤ)

/-- The row-major traversal of the scanned coordinate rectangle:
`for gridRow in minRow..maxRow: for gridCol in minCol..maxCol`. -/
def coordRange (minCol maxCol minRow maxRow : ℤ) : List (ℤ × ℤ) :=
  (intRange minRow maxRow).flatMap fun r => (intRange minCol maxCol).map fun c => (c, r)

/-- The `Math.floor` column lower bound `(cameraX - buffer) / getItemSpacingX()`. -/
def minGridCol (d : Dims) (cameraX : ℚ) : ℤ := ⌊(cameraX - buffer) / getItemSpacingX d⌋

/-- The `Math.ceil` column upper bound `(cameraX + width + buffer) / getItemSpacingX()`. -/
def maxGridCol (d : Dims) (cameraX width : ℚ) : ℤ := ⌈(cameraX + width + buffer) / getItemSpacingX d⌉

/-- The `Math.floor` row lower bound `(cameraY - buffer) / getItemSpacingY()`. -/
def minGridRow (d : Dims) (cameraY : ℚ) : ℤ := ⌊(cameraY - buffer) / getItemSpacingY d⌋

/-- The `Math.ceil` row upper bound `(cameraY + height + buffer) / getItemSpacingY()`. -/
def maxGridRow (d : Dims) (cameraY height : ℚ) : ℤ := ⌈(cameraY + height + buffer) / getItemSpacingY d⌉

/-- The double-check visibility filter of `updateVisibleItems` (intersection
of the item's rectangle with the buffer-expanded viewport). -/
def passesFilter (item : GridItem) (cameraX cameraY width height : ℚ) : Prop :=
  cameraX - buffer ≤ item.x + item.width ∧ item.x ≤ cameraX + width + buffer ∧
  cameraY - buffer ≤ item.y + item.height ∧ item.y ≤ cameraY + height + buffer

instance (item : GridItem) (cameraX cameraY width height : ℚ) :
    Decidable (passesFilter item cameraX cameraY width height) := by
  unfold passesFilter; infer_instance

/-- `updateVisibleItems()`: convert the camera offset to viewport-space,
derive the scanned coordinate rectangle, resolve every coordinate in
row-major order and keep the items passing the intersection filter.
The mutable state is threaded through the traversal. -/
def updateVisibleItems (d : Dims) (potteryData : List PotteryItem) (oracle : ℕ → ℕ → ℕ)
    (s : GridState) (cameraOffsetX cameraOffsetY width height : ℚ) :
    List GridItem × GridState :=
  let cameraX := -cameraOffsetX
  let cameraY := -cameraOffsetY
  (coordRange (minGridCol d cameraX) (maxGridCol d cameraX width)
      (minGridRow d cameraY) (maxGridRow d cameraY height)).foldl
    (fun acc cr =>
      let r := getItemForPosition d potteryData oracle acc.2 cr.1 cr.2
      if passesFilter r.1 cameraX cameraY width height
      then (acc.1 ++ [r.1], r.2) else (acc.1, r.2))
    ([], s)

/-- A tile's world rectangle intersects the unbuffered viewport rectangle
(the viewport-space origin is `(-cameraOffset.x, -cameraOffset.y)`). -/
def intersectsUnbuffered (d : Dims) (cameraOffsetX cameraOffsetY width height : ℚ)
    (gridCol gridRow : ℤ) : Prop :=
  -cameraOffsetX ≤ itemWorldX d gridCol + d.itemWidth ∧
  itemWorldX d gridCol ≤ -cameraOffsetX + width ∧
  -cameraOffsetY ≤ itemWorldY d gridCol gridRow + d.itemHeight ∧
  itemWorldY d gridCol gridRow ≤ -cameraOffsetY + height

instance (d : Dims) (cameraOffsetX cameraOffsetY width height : ℚ) (gridCol gridRow : ℤ) :
    Decidable (intersectsUnbuffered d cameraOffsetX cameraOffsetY width height gridCol gridRow) := by
  unfold intersectsUnbuffered; infer_instance

/-- Fresh (empty-cache, just-shuffled) lattice state, as right after
`calculateDimensions` cleared `stableGrid`. -/
def freshGridState (shuffled : List PotteryItem) : GridState := ⟨[], shuffled, 0, 0⟩

/-- The visibility filter, phrased on the lattice-derived rectangle of a
coordinate rather than on a cached item. -/
def derivedPasses (d : Dims) (cameraX cameraY width height : ℚ) (gridCol gridRow : ℤ) : Prop :=
  cameraX - buffer ≤ itemWorldX d gridCol + d.itemWidth ∧
  itemWorldX d gridCol ≤ cameraX + width + buffer ∧
  cameraY - buffer ≤ itemWorldY d gridCol gridRow + d.itemHeight ∧
  itemWorldY d gridCol gridRow ≤ cameraY + height + buffer

/-- Every cache entry carries the geometry its key derives under the current
dimensions (true of every entry `getItemForPosition` creates, and of the
empty cache left behind by `calculateDimensions`). -/
def cacheConsistent (d : Dims) (s : GridState) : Prop :=
  ∀ p : ℤ × ℤ, ∀ it : GridItem, s.stableGrid.lookup p = some it →
    it.col = p.1 ∧ it.row = p.2 ∧ it.x = itemWorldX d p.1 ∧ it.y = itemWorldY d p.1 p.2 ∧
    it.width = d.itemWidth ∧ it.height = d.itemHeight

theorem cacheConsistent_fresh (d : Dims) (shuffled : List PotteryItem) :
    cacheConsistent d (freshGridState shuffled) := by
  intro p it h
  simp [freshGridState, List.lookup] at h

theorem getNextPottery_stableGrid (potteryData : List PotteryItem) (oracle : ℕ → ℕ → ℕ)
    (s : GridState) : (getNextPottery potteryData oracle s).2.stableGrid = s.stableGrid := by
  unfold getNextPottery
  by_cases h : s.shuffledPottery.length ≤ s.potteryIndex <;> simp [h]

theorem getItemForPosition_fields (d : Dims) (potteryData : List PotteryItem)
    (oracle : ℕ → ℕ → ℕ) (s : GridState) (gridCol gridRow : ℤ)
    (hs : cacheConsistent d s) :
    ((getItemForPosition d potteryData oracle s gridCol gridRow).1).col = gridCol ∧
    ((getItemForPosition d potteryData oracle s gridCol gridRow).1).row = gridRow ∧
    ((getItemForPosition d potteryData oracle s gridCol gridRow).1).x = itemWorldX d gridCol ∧
    ((getItemForPosition d potteryData oracle s gridCol gridRow).1).y = itemWorldY d gridCol gridRow ∧
    ((getItemForPosition d potteryData oracle s gridCol gridRow).1).width = d.itemWidth ∧
    ((getItemForPosition d potteryData oracle s gridCol gridRow).1).height = d.itemHeight := by
  unfold getItemForPosition
  cases h : s.stableGrid.lookup (gridCol, gridRow) with
  | some item => simpa [h] using hs (gridCol, gridRow) item h
  | none => simp [h, itemWorldX, itemWorldY]

theorem lookup_cons_self {α β : Type} [BEq α] [LawfulBEq α] (a : α) (b : β)
    (es : List (α × β)) : ((a, b) :: es).lookup a = some b := by
  simp [List.lookup]

theorem lookup_cons_ne {α β : Type} [BEq α] [LawfulBEq α] {a k : α} (h : a ≠ k) (b : β)
    (es : List (α × β)) : ((k, b) :: es).lookup a = es.lookup a := by
  simp [List.lookup, beq_false_of_ne h]

theorem getItemForPosition_consistent (d : Dims) (potteryData : List PotteryItem)
    (oracle : ℕ → ℕ → ℕ) (s : GridState) (gridCol gridRow : ℤ)
    (hs : cacheConsistent d s) :
    cacheConsistent d (getItemForPosition d potteryData oracle s gridCol gridRow).2 := by
  unfold getItemForPosition
  cases h : s.stableGrid.lookup (gridCol, gridRow) with
  | some item => simpa [h] using hs
  | none =>
    simp only [h]
    intro p it hit
    simp only [getNextPottery_stableGrid] at hit
    rcases eq_or_ne p (gridCol, gridRow) with rfl | hne
    · rw [lookup_cons_self] at hit
      cases hit
      simp [itemWorldX, itemWorldY]
    · rw [lookup_cons_ne hne] at hit
      exact hs p it hit

end Porto

namespace Porto

theorem mem_intRange {lo hi c : ℤ} : c ∈ intRange lo hi ↔ lo ≤ c ∧ c ≤ hi := by
  unfold intRange
  rw [List.mem_map]
  constructor
  · rintro ⟨n, hn, rfl⟩
    rw [List.mem_range] at hn
    omega
  · rintro ⟨h1, h2⟩
    refine ⟨(c - lo).toNat, ?_, ?_⟩
    · rw [List.mem_range]
      omega
    · omega

theorem mem_coordRange {minCol maxCol minRow maxRow c r : ℤ} :
    (c, r) ∈ coordRange minCol maxCol minRow maxRow ↔
      (minCol ≤ c ∧ c ≤ maxCol) ∧ (minRow ≤ r ∧ r ≤ maxRow) := by
  unfold coordRange
  simp only [List.mem_flatMap, List.mem_map, mem_intRange]
  constructor
  · rintro ⟨r', hr', c', hc', heq⟩
    obtain ⟨rfl, rfl⟩ : c' = c ∧ r' = r := by
      constructor <;> [exact congrArg Prod.fst heq; exact congrArg Prod.snd heq]
    exact ⟨hc', hr'⟩
  · rintro ⟨hc, hr⟩
    exact ⟨r, hr, c, hc, rfl⟩

/-- The loop body of `updateVisibleItems`. -/
def visibleStep (d : Dims) (potteryData : List PotteryItem) (oracle : ℕ → ℕ → ℕ)
    (cameraX cameraY width height : ℚ) (acc : List GridItem × GridState) (cr : ℤ × ℤ) :
    List GridItem × GridState :=
  let r := getItemForPosition d potteryData oracle acc.2 cr.1 cr.2
  if passesFilter r.1 cameraX cameraY width height
  then (acc.1 ++ [r.1], r.2) else (acc.1, r.2)

theorem updateVisibleItems_eq_foldl (d : Dims) (potteryData : List PotteryItem)
    (oracle : ℕ → ℕ → ℕ) (s : GridState) (ox oy width height : ℚ) :
    updateVisibleItems d potteryData oracle s ox oy width height =
      (coordRange (minGridCol d (-ox)) (maxGridCol d (-ox) width)
          (minGridRow d (-oy)) (maxGridRow d (-oy) height)).foldl
        (visibleStep d potteryData oracle (-ox) (-oy) width height) ([], s) := rfl

theorem visibleFold_acc_mono (d : Dims) (potteryData : List PotteryItem)
    (oracle : ℕ → ℕ → ℕ) (cameraX cameraY width height : ℚ) (L : List (ℤ × ℤ)) :
    ∀ acc : List GridItem × GridState, ∀ it ∈ acc.1,
      it ∈ (L.foldl (visibleStep d potteryData oracle cameraX cameraY width height) acc).1 := by
  induction L with
  | nil => intro acc it h; simpa using h
  | cons hd tl ih =>
    intro acc it h
    rw [List.foldl_cons]
    apply ih
    unfold visibleStep
    by_cases hp : passesFilter (getItemForPosition d potteryData oracle acc.2 hd.1 hd.2).1
        cameraX cameraY width height <;> simp [hp, h]

theorem visibleFold_mem_coords (d : Dims) (potteryData : List PotteryItem)
    (oracle : ℕ → ℕ → ℕ) (cameraX cameraY width height : ℚ) (L : List (ℤ × ℤ)) :
    ∀ acc : List GridItem × GridState, cacheConsistent d acc.2 →
      ∀ it ∈ (L.foldl (visibleStep d potteryData oracle cameraX cameraY width height) acc).1,
        it ∈ acc.1 ∨ (it.col, it.row) ∈ L := by
  induction L with
  | nil => intro acc _ it h; exact Or.inl (by simpa using h)
  | cons hd tl ih =>
    intro acc hacc it h
    rw [List.foldl_cons] at h
    have hcons : cacheConsistent d (visibleStep d potteryData oracle cameraX cameraY
        width height acc hd).2 := by
      unfold visibleStep
      by_cases hp : passesFilter (getItemForPosition d potteryData oracle acc.2 hd.1 hd.2).1
          cameraX cameraY width height <;>
        simpa [hp] using getItemForPosition_consistent d potteryData oracle acc.2 hd.1 hd.2 hacc
    rcases ih _ hcons it h with hin | hin
    · unfold visibleStep at hin
      by_cases hp : passesFilter (getItemForPosition d potteryData oracle acc.2 hd.1 hd.2).1
          cameraX cameraY width height
      · simp only [hp, if_pos, List.mem_append, List.mem_singleton] at hin
        rcases hin with hin | rfl
        · exact Or.inl hin
        · right
          obtain ⟨h1, h2, -⟩ := getItemForPosition_fields d potteryData oracle acc.2 hd.1 hd.2 hacc
          simp [h1, h2]
      · simp only [hp, if_neg, not_false_iff] at hin
        exact Or.inl hin
    · exact Or.inr (List.mem_cons_of_mem _ hin)

theorem visibleFold_complete (d : Dims) (potteryData : List PotteryItem)
    (oracle : ℕ → ℕ → ℕ) (cameraX cameraY width height : ℚ) (c r : ℤ)
    (hder : derivedPasses d cameraX cameraY width height c r) (L : List (ℤ × ℤ)) :
    ∀ acc : List GridItem × GridState, cacheConsistent d acc.2 → (c, r) ∈ L →
      ∃ it ∈ (L.foldl (visibleStep d potteryData oracle cameraX cameraY width height) acc).1,
        it.col = c ∧ it.row = r := by
  induction L with
  | nil => intro acc _ h; simp at h
  | cons hd tl ih =>
    intro acc hacc hmem
    rw [List.foldl_cons]
    have hcons : cacheConsistent d (visibleStep d potteryData oracle cameraX cameraY
        width height acc hd).2 := by
      unfold visibleStep
      by_cases hp : passesFilter (getItemForPosition d potteryData oracle acc.2 hd.1 hd.2).1
          cameraX cameraY width height <;>
        simpa [hp] using getItemForPosition_consistent d potteryData oracle acc.2 hd.1 hd.2 hacc
    rcases List.mem_cons.mp hmem with heq | htl
    · obtain ⟨h1, h2, h3, h4, h5, h6⟩ :=
        getItemForPosition_fields d potteryData oracle acc.2 hd.1 hd.2 hacc
      have hp : passesFilter (getItemForPosition d potteryData oracle acc.2 hd.1 hd.2).1
          cameraX cameraY width height := by
        unfold passesFilter
        rw [h3, h4, h5, h6]
        have hc : hd.1 = c := by rw [← heq]
        have hr : hd.2 = r := by rw [← heq]
        rw [hc, hr]
        exact hder
      refine ⟨(getItemForPosition d potteryData oracle acc.2 hd.1 hd.2).1, ?_, ?_, ?_⟩
      · apply visibleFold_acc_mono
        unfold visibleStep
        simp [hp]
      · rw [h1, (by rw [← heq] : hd.1 = c)]
      · rw [h2, (by rw [← heq] : hd.2 = r)]
    · exact ih _ hcons htl

end Porto

namespace Porto

theorem zigzag_bounds (d : Dims) (c : ℤ) (hy : (0 : ℚ) ≤ getItemSpacingY d) :
    (0 : ℚ) ≤ (if isStaggeredCol c then getZigzagOffset d else 0) ∧
    (if isStaggeredCol c then getZigzagOffset d else 0) ≤ getItemSpacingY d / 2 := by
  unfold getZigzagOffset
  by_cases h : isStaggeredCol c = true
  · rw [if_pos h]
    constructor <;> linarith
  · rw [if_neg h]
    constructor <;> linarith

theorem intersects_in_range (d : Dims) (hgx : 0 ≤ d.gapX)
    (hx : 0 < getItemSpacingX d) (hy : 0 < getItemSpacingY d)
    (hbig : d.itemHeight < 1000 + d.gapY)
    (ox oy w h : ℚ) (c r : ℤ)
    (hint : intersectsUnbuffered d ox oy w h c r) :
    minGridCol d (-ox) ≤ c ∧ c ≤ maxGridCol d (-ox) w ∧
    minGridRow d (-oy) ≤ r ∧ r ≤ maxGridRow d (-oy) h := by
  obtain ⟨hi1, hi2, hi3, hi4⟩ := hint
  rw [itemWorldX] at hi1 hi2
  rw [itemWorldY] at hi3 hi4
  obtain ⟨hoff0, hoff1⟩ := zigzag_bounds d c hy.le
  have hsy : getItemSpacingY d = d.itemHeight + d.gapY := rfl
  have hsx : getItemSpacingX d = d.itemWidth + d.gapX := rfl
  refine ⟨?_, ?_, ?_, ?_⟩
  · by_contra hlt
    push_neg at hlt
    have h1 : c + 1 ≤ minGridCol d (-ox) := by omega
    have h2 : (((c + 1 : ℤ) : ℚ)) ≤ (-ox - buffer) / getItemSpacingX d :=
      Int.le_floor.mp h1
    have h3 : (((c + 1 : ℤ) : ℚ)) * getItemSpacingX d ≤ -ox - buffer :=
      (le_div_iff hx).mp h2
    have hexp : (((c + 1 : ℤ) : ℚ)) * getItemSpacingX d
        = (c : ℚ) * getItemSpacingX d + getItemSpacingX d := by
      push_cast
      ring
    rw [hexp, buffer] at h3
    linarith
  · have hbuf : buffer = (500 : ℚ) := rfl
    have h1 : (c : ℚ) * getItemSpacingX d ≤ -ox + w + buffer := by linarith
    have h2 : (c : ℚ) ≤ (-ox + w + buffer) / getItemSpacingX d :=
      (le_div_iff hx).mpr h1
    have h3 : ((c : ℚ)) ≤ (⌈(-ox + w + buffer) / getItemSpacingX d⌉ : ℚ) :=
      le_trans h2 (Int.le_ceil _)
    exact_mod_cast h3
  · by_contra hlt
    push_neg at hlt
    have h1 : r + 1 ≤ minGridRow d (-oy) := by omega
    have h2 : (((r + 1 : ℤ) : ℚ)) ≤ (-oy - buffer) / getItemSpacingY d :=
      Int.le_floor.mp h1
    have h3 : (((r + 1 : ℤ) : ℚ)) * getItemSpacingY d ≤ -oy - buffer :=
      (le_div_iff hy).mp h2
    have hexp : (((r + 1 : ℤ) : ℚ)) * getItemSpacingY d
        = (r : ℚ) * getItemSpacingY d + getItemSpacingY d := by
      push_cast
      ring
    rw [hexp, buffer] at h3
    linarith
  · have hbuf : buffer = (500 : ℚ) := rfl
    have h1 : (r : ℚ) * getItemSpacingY d ≤ -oy + h + buffer := by linarith
    have h2 : (r : ℚ) ≤ (-oy + h + buffer) / getItemSpacingY d :=
      (le_div_iff hy).mpr h1
    have h3 : ((r : ℚ)) ≤ (⌈(-oy + h + buffer) / getItemSpacingY d⌉ : ℚ) :=
      le_trans h2 (Int.le_ceil _)
    exact_mod_cast h3

theorem intersects_derivedPasses (d : Dims) (ox oy w h : ℚ) (c r : ℤ)
    (hint : intersectsUnbuffered d ox oy w h c r) :
    derivedPasses d (-ox) (-oy) w h c r := by
  obtain ⟨hi1, hi2, hi3, hi4⟩ := hint
  refine ⟨?_, ?_, ?_, ?_⟩ <;> rw [buffer] <;> linarith

end Porto

/-- C3 (amended): culling soundness holds for every camera offset provided
the tile height is below 1000px plus the vertical gap (equivalently: the
zigzag offset `spacingY/2` is at most the 500px buffer plus the gap). Under
that bound — satisfied by the `calculateDimensions` presets on every
viewport less than ≈3676px tall on desktop and ≈5333px on mobile — every
tile whose world rectangle (including its zigzag offset) intersects the
unbuffered viewport appears in the result of `updateVisibleItems`. -/
theorem Porto.C3_culling_soundness_amended (d : Porto.Dims)
    (hgx : 0 ≤ d.gapX)
    (hx : 0 < Porto.getItemSpacingX d) (hy : 0 < Porto.getItemSpacingY d)
    (hbig : d.itemHeight < 1000 + d.gapY)
    (potteryData : List Porto.PotteryItem) (oracle : ℕ → ℕ → ℕ) (s : Porto.GridState)
    (hs : Porto.cacheConsistent d s)
    (ox oy w h : ℚ) (c r : ℤ)
    (hint : Porto.intersectsUnbuffered d ox oy w h c r) :
    ∃ it ∈ (Porto.updateVisibleItems d potteryData oracle s ox oy w h).1,
      it.col = c ∧ it.row = r := by
  rw [Porto.updateVisibleItems_eq_foldl]
  obtain ⟨hc1, hc2, hr1, hr2⟩ :=
    Porto.intersects_in_range d hgx hx hy hbig ox oy w h c r hint
  exact Porto.visibleFold_complete d potteryData oracle (-ox) (-oy) w h c r
    (Porto.intersects_derivedPasses d ox oy w h c r hint) _ ([], s) hs
    (Porto.mem_coordRange.mpr ⟨⟨hc1, hc2⟩, ⟨hr1, hr2⟩⟩)

/-- C3 counterexample: on a viewport of width 768 and height 9488 (mobile
preset: tiles 1904×2372, gaps 593) with camera offset (0, −500), the tile
at lattice coordinate (0, −1) — a staggered column — intersects the
unbuffered viewport, yet `updateVisibleItems` never resolves it: its row
lies below the floor-derived scan bound, so it is absent from the result.
The claim as stated (for every camera offset and viewport size) is false. -/
theorem Porto.C3_culling_soundness_counterexample :
    Porto.intersectsUnbuffered (Porto.calculateDimensions 9488 768) 0 (-500) 768 9488 0 (-1) ∧
    ∀ it ∈ (Porto.updateVisibleItems (Porto.calculateDimensions 9488 768) [] (fun _ _ => 0)
        (Porto.freshGridState []) 0 (-500) 768 9488).1, ¬(it.col = 0 ∧ it.row = -1) := by
  have hd : Porto.calculateDimensions 9488 768 = ⟨1904, 2372, 593, 593⟩ := by
    unfold Porto.calculateDimensions
    norm_num
  constructor
  · rw [hd]
    have hst : Porto.isStaggeredCol 0 = true := by decide
    simp only [Porto.intersectsUnbuffered, Porto.itemWorldX, Porto.itemWorldY,
      Porto.getItemSpacingX, Porto.getItemSpacingY, Porto.getZigzagOffset, hst, if_true]
    norm_num
  · intro it hit
    rintro ⟨hcol, hrow⟩
    rw [Porto.updateVisibleItems_eq_foldl] at hit
    have hmem := Porto.visibleFold_mem_coords (Porto.calculateDimensions 9488 768) []
      (fun _ _ => 0) (-(0 : ℚ)) (-(-500 : ℚ)) 768 9488 _ ([], Porto.freshGridState [])
      (Porto.cacheConsistent_fresh _ _) it hit
    rcases hmem with hin | hin
    · simp at hin
    · rw [hcol, hrow] at hin
      have hbound := (Porto.mem_coordRange.mp hin).2.1
      have hmin : Porto.minGridRow (Porto.calculateDimensions 9488 768) (-(-500 : ℚ)) = 0 := by
        rw [hd]
        unfold Porto.minGridRow Porto.getItemSpacingY Porto.buffer
        norm_num
      rw [hmin] at hbound
      omega

/-- C3 witness: on a 1024×800 desktop viewport with the camera at the
origin, the tile at (0, 0) intersects the unbuffered viewport and the
amended soundness theorem places it in the visible set. -/
theorem Porto.C3_culling_soundness_witness :
    ∃ it ∈ (Porto.updateVisibleItems (Porto.calculateDimensions 800 1024) [] (fun _ _ => 0)
        (Porto.freshGridState []) 0 0 1024 800).1, it.col = 0 ∧ it.row = 0 := by
  have hd : Porto.calculateDimensions 800 1024 = ⟨152320/593, 320, 512/5, 512/5⟩ := by
    unfold Porto.calculateDimensions
    norm_num
  apply Porto.C3_culling_soundness_amended
  · rw [hd]
    norm_num
  · rw [hd]
    unfold Porto.getItemSpacingX
    norm_num
  · rw [hd]
    unfold Porto.getItemSpacingY
    norm_num
  · rw [hd]
    norm_num
  · exact Porto.cacheConsistent_fresh _ _
  · rw [hd]
    have hst : Porto.isStaggeredCol 0 = true := by decide
    simp only [Porto.intersectsUnbuffered, Porto.itemWorldX, Porto.itemWorldY,
      Porto.getItemSpacingX, Porto.getItemSpacingY, Porto.getZigzagOffset, hst, if_true]
    norm_num

namespace Porto

/-! ### Camera/physics engine (`InfiniteImageGrid`, `startAnimation` and the
mouse handlers). JavaScript numbers are modelled as exact reals;
`Math.hypot` becomes `Real.sqrt` of the sum of squares. -/

/-- The `Position` interface `{x, y}`. -/
structure Position where
  x : ℝ
  y : ℝ

/-- The engine's mutable refs. -/
structure Engine where
  cameraOffset : Position
  targetOffset : Position
  momentum : Position
  vel0 : Position
  vel1 : Position
  vel2 : Position
  isDragging : Bool
  isMoving : Bool
  gridStopped : Bool
  lastPosition : Position
  lastMoveTime : ℝ
  lastUpdateTime : ℝ
  isDirty : Bool

/-- `const damping = 0.92`. -/
def damping : ℝ := 0.92

/-- `const momentumStrength = 0.10`. -/
def momentumStrength : ℝ := 0.10

/-- `const smoothingFactor = 0.02`. -/
def smoothingFactor : ℝ := 0.02

/-- `const moveThreshold = 60`. -/
def moveThreshold : ℝ := 60

/-- `const stopThreshold = 0.2`. -/
def stopThreshold : ℝ := 0.2

open scoped Classical

/-- The momentum block at the top of the `animate` frame callback: apply
momentum to the target and damp it (or halve it when input has gone idle)
while its L1 magnitude exceeds `stopThreshold` and the user is not
dragging; keep it untouched while dragging; otherwise force a complete
stop. The inner hard-stop `if` re-tests the magnitude that was just found
to exceed the threshold, so it never fires (kept for fidelity). -/
noncomputable def momentumPhase (s : Engine) : Engine :=
  let momentumMagnitude := |s.momentum.x| + |s.momentum.y|
  if s.isDragging = false ∧ stopThreshold < momentumMagnitude then
    let s1 :=
      if s.isMoving then
        { s with
            targetOffset := ⟨s.targetOffset.x + s.momentum.x, s.targetOffset.y + s.momentum.y⟩,
            momentum := ⟨s.momentum.x * damping, s.momentum.y * damping⟩ }
      else
        { s with momentum := ⟨s.momentum.x * 0.5, s.momentum.y * 0.5⟩ }
    if momentumMagnitude < stopThreshold then { s1 with momentum := ⟨0, 0⟩ } else s1
  else if s.isDragging then s
  else { s with momentum := ⟨0, 0⟩ }

/-- `Math.hypot(targetOffset.x - cameraOffset.x, targetOffset.y - cameraOffset.y)`. -/
noncomputable def engineDistance (s : Engine) : ℝ :=
  Real.sqrt ((s.targetOffset.x - s.cameraOffset.x) ^ 2 + (s.targetOffset.y - s.cameraOffset.y) ^ 2)

/-- The rest of the frame callback: snap the target onto the camera when
`0.1 < distance < 2` and not dragging (emitting `setGridStopped(true)`),
emit `setGridStopped(true)` again when the post-decay momentum is exactly
zero and `distance ≤ 0.1`, then ease the camera toward the target with the
distance-scaled smoothing factor. `distance` is the stale value measured
before the snap, exactly as in the source. -/
noncomputable def settlePhase (s : Engine) (distance : ℝ) : Engine :=
  let s2 :=
    if s.isDragging = false ∧ distance < 2 ∧ 0.1 < distance then
      { s with targetOffset := s.cameraOffset, gridStopped := true }
    else s
  let momentumMag := |s2.momentum.x| + |s2.momentum.y|
  let s3 :=
    if s2.isDragging = false ∧ momentumMag = 0 ∧ distance ≤ 0.1 then
      { s2 with gridStopped := true }
    else s2
  let dynamicSmoothing := smoothingFactor * (1 + min 1 (distance / 500))
  { s3 with cameraOffset :=
      ⟨s3.cameraOffset.x + (s3.targetOffset.x - s3.cameraOffset.x) * dynamicSmoothing,
       s3.cameraOffset.y + (s3.targetOffset.y - s3.cameraOffset.y) * dynamicSmoothing⟩ }

/-- One frame of `animate` up to the camera transform: the momentum block,
the distance measurement, and the settle/smoothing block. Returns the new
state and the measured distance (used afterwards by the dirty-flag check). -/
noncomputable def physicsStep (s : Engine) : Engine × ℝ :=
  (settlePhase (momentumPhase s) (engineDistance (momentumPhase s)),
   engineDistance (momentumPhase s))

/-- The tail of the frame callback: mark dirty (and stamp
`lastUpdateTime`) when `|distance| > 200` and more than 100ms have passed
since the last stamp; then run `updateVisibleItems` and clear the flag if
dirty. Returns whether `updateVisibleItems` ran. -/
noncomputable def dirtyStep (now distance : ℝ) (s : Engine) : Engine × Bool :=
  let s1 :=
    if 200 < |distance| ∧ 100 < now - s.lastUpdateTime then
      { s with isDirty := true, lastUpdateTime := now }
    else s
  if s1.isDirty then ({ s1 with isDirty := false }, true) else (s1, false)

/-- A whole `animate` frame at wall-clock time `now`. -/
noncomputable def animate (now : ℝ) (s : Engine) : Engine × Bool :=
  dirtyStep now (physicsStep s).2 (physicsStep s).1

/-- Iterating the physics part of the frame loop (the camera and momentum
fields do not depend on the frame's wall-clock time). -/
noncomputable def stepIter (n : ℕ) (s : Engine) : Engine :=
  (fun t => (physicsStep t).1)^[n] s

/-- `updateVelocity(deltaX, deltaY)`: shift the three velocity registers and
recompute the momentum as the weighted sum of the samples times
`momentumStrength`. -/
noncomputable def updateVelocity (deltaX deltaY : ℝ) (s : Engine) : Engine :=
  let vel2 := s.vel1
  let vel1 := s.vel0
  let vel0 : Position := ⟨deltaX, deltaY⟩
  { s with vel0 := vel0, vel1 := vel1, vel2 := vel2,
           momentum := ⟨(vel2.x * 0.1667 + vel1.x * 0.3333 + vel0.x * 0.5) * momentumStrength,
                        (vel2.y * 0.1667 + vel1.y * 0.3333 + vel0.y * 0.5) * momentumStrength⟩ }

/-- `handleMouseDown`. -/
noncomputable def handleMouseDown (now clientX clientY : ℝ) (s : Engine) : Engine :=
  { s with isDragging := true, gridStopped := false,
           lastPosition := ⟨clientX, clientY⟩, lastMoveTime := now, isMoving := true }

/-- `handleMouseMove`: while dragging and the pointer actually moved, add
the delta to the target 1:1, update the velocity registers, and stamp the
move. -/
noncomputable def handleMouseMove (now clientX clientY : ℝ) (s : Engine) : Engine :=
  if s.isDragging = false then s
  else
    let deltaX := clientX - s.lastPosition.x
    let deltaY := clientY - s.lastPosition.y
    if deltaX ≠ 0 ∨ deltaY ≠ 0 then
      let s1 := { s with targetOffset := ⟨s.targetOffset.x + deltaX, s.targetOffset.y + deltaY⟩ }
      let s2 := updateVelocity deltaX deltaY s1
      { s2 with lastPosition := ⟨clientX, clientY⟩, lastMoveTime := now, isMoving := true }
    else s

/-- `handleMouseUp`: stop dragging; when the pointer has been stationary
for longer than `moveThreshold`, also clear `isMoving` and zero the
momentum. -/
noncomputable def handleMouseUp (now : ℝ) (s : Engine) : Engine :=
  if s.isDragging = false then s
  else
    let s1 := { s with isDragging := false }
    if moveThreshold < now - s1.lastMoveTime then
      { s1 with isMoving := false, momentum := ⟨0, 0⟩ }
    else s1

end Porto

namespace Porto

theorem momentumPhase_isDragging (s : Engine) : (momentumPhase s).isDragging = s.isDragging := by
  simp only [momentumPhase]
  repeat' split
  all_goals rfl

theorem momentumPhase_isMoving (s : Engine) : (momentumPhase s).isMoving = s.isMoving := by
  simp only [momentumPhase]
  repeat' split
  all_goals rfl

theorem momentumPhase_cameraOffset (s : Engine) :
    (momentumPhase s).cameraOffset = s.cameraOffset := by
  simp only [momentumPhase]
  repeat' split
  all_goals rfl

theorem momentumPhase_gridStopped (s : Engine) :
    (momentumPhase s).gridStopped = s.gridStopped := by
  simp only [momentumPhase]
  repeat' split
  all_goals rfl

theorem momentumPhase_lastUpdateTime (s : Engine) :
    (momentumPhase s).lastUpdateTime = s.lastUpdateTime := by
  simp only [momentumPhase]
  repeat' split
  all_goals rfl

theorem momentumPhase_isDirty (s : Engine) : (momentumPhase s).isDirty = s.isDirty := by
  simp only [momentumPhase]
  repeat' split
  all_goals rfl

theorem momentumPhase_dragging (s : Engine) (h : s.isDragging = true) :
    momentumPhase s = s := by
  unfold momentumPhase
  rw [if_neg (by simp [h]), if_pos h]

theorem momentumPhase_small (s : Engine) (h : s.isDragging = false)
    (hm : |s.momentum.x| + |s.momentum.y| ≤ stopThreshold) :
    momentumPhase s = { s with momentum := ⟨0, 0⟩ } := by
  unfold momentumPhase
  rw [if_neg (by intro hc; exact absurd hc.2 (not_lt.mpr hm)), if_neg (by simp [h])]

theorem momentumPhase_decay_moving (s : Engine) (h : s.isDragging = false)
    (hmov : s.isMoving = true) (hm : stopThreshold < |s.momentum.x| + |s.momentum.y|) :
    momentumPhase s =
      { s with
          targetOffset := ⟨s.targetOffset.x + s.momentum.x, s.targetOffset.y + s.momentum.y⟩,
          momentum := ⟨s.momentum.x * damping, s.momentum.y * damping⟩ } := by
  unfold momentumPhase
  rw [if_pos ⟨h, hm⟩]
  simp only [hmov, if_true]
  rw [if_neg (not_lt.mpr hm.le)]

theorem momentumPhase_decay_idle (s : Engine) (h : s.isDragging = false)
    (hmov : s.isMoving = false) (hm : stopThreshold < |s.momentum.x| + |s.momentum.y|) :
    momentumPhase s = { s with momentum := ⟨s.momentum.x * 0.5, s.momentum.y * 0.5⟩ } := by
  unfold momentumPhase
  rw [if_pos ⟨h, hm⟩]
  simp only [hmov, if_false, Bool.false_eq_true]
  rw [if_neg (not_lt.mpr hm.le)]

theorem settlePhase_momentum (s : Engine) (d : ℝ) :
    (settlePhase s d).momentum = s.momentum := by
  simp only [settlePhase]
  repeat' split
  all_goals rfl

theorem settlePhase_isDragging (s : Engine) (d : ℝ) :
    (settlePhase s d).isDragging = s.isDragging := by
  simp only [settlePhase]
  repeat' split
  all_goals rfl

theorem settlePhase_isMoving (s : Engine) (d : ℝ) :
    (settlePhase s d).isMoving = s.isMoving := by
  simp only [settlePhase]
  repeat' split
  all_goals rfl

theorem settlePhase_lastUpdateTime (s : Engine) (d : ℝ) :
    (settlePhase s d).lastUpdateTime = s.lastUpdateTime := by
  simp only [settlePhase]
  repeat' split
  all_goals rfl

theorem settlePhase_isDirty (s : Engine) (d : ℝ) :
    (settlePhase s d).isDirty = s.isDirty := by
  simp only [settlePhase]
  repeat' split
  all_goals rfl

theorem settlePhase_gridStopped_iff (s : Engine) (d : ℝ) :
    ((settlePhase s d).gridStopped = true ↔
      (s.gridStopped = true ∨
        (s.isDragging = false ∧ d < 2 ∧ 0.1 < d) ∨
        (s.isDragging = false ∧ |s.momentum.x| + |s.momentum.y| = 0 ∧ d ≤ 0.1))) := by
  simp only [settlePhase, apply_ite Engine.isDragging, apply_ite Engine.momentum,
    apply_ite Engine.gridStopped, apply_ite Position.x, apply_ite Position.y, ite_self]
  by_cases hA : s.isDragging = false <;>
    by_cases hd2 : d < 2 <;>
    by_cases hd1 : (0.1 : ℝ) < d <;>
    by_cases hm : |s.momentum.x| + |s.momentum.y| = 0 <;>
    by_cases hd01 : d ≤ 0.1 <;>
    simp [hA, hd2, hd1, hm, hd01]

end Porto

namespace Porto

theorem settlePhase_snap (s : Engine) (d : ℝ)
    (h : s.isDragging = false ∧ d < 2 ∧ 0.1 < d) :
    (settlePhase s d).cameraOffset.x = s.cameraOffset.x ∧
    (settlePhase s d).cameraOffset.y = s.cameraOffset.y ∧
    (settlePhase s d).targetOffset = s.cameraOffset := by
  simp only [settlePhase, if_pos h]
  split <;> constructor <;> ring_nf <;> simp

theorem settlePhase_nosnap (s : Engine) (d : ℝ)
    (h : ¬(s.isDragging = false ∧ d < 2 ∧ 0.1 < d)) :
    (settlePhase s d).targetOffset = s.targetOffset ∧
    (settlePhase s d).cameraOffset.x = s.cameraOffset.x +
      (s.targetOffset.x - s.cameraOffset.x) * (smoothingFactor * (1 + min 1 (d / 500))) ∧
    (settlePhase s d).cameraOffset.y = s.cameraOffset.y +
      (s.targetOffset.y - s.cameraOffset.y) * (smoothingFactor * (1 + min 1 (d / 500))) := by
  simp only [settlePhase, if_neg h]
  split <;> exact ⟨rfl, rfl, rfl⟩

theorem engineDistance_of_aligned (s : Engine)
    (hy : s.targetOffset.y = s.cameraOffset.y)
    (hx : s.cameraOffset.x ≤ s.targetOffset.x) :
    engineDistance s = s.targetOffset.x - s.cameraOffset.x := by
  unfold engineDistance
  rw [hy]
  have h0 : s.cameraOffset.y - s.cameraOffset.y = 0 := by ring
  rw [h0]
  norm_num
  exact Real.sqrt_sq (by linarith)

/-- C1 counterexample state: not dragging, still `moving`, momentum (1, 0),
camera and target both at the origin, `gridStopped` false. -/
noncomputable def settleCexState : Engine :=
  ⟨⟨0, 0⟩, ⟨0, 0⟩, ⟨1, 0⟩, ⟨0, 0⟩, ⟨0, 0⟩, ⟨0, 0⟩, false, true, false, ⟨0, 0⟩, 0, 0, false⟩

end Porto

/-- C1 counterexample: in the frame stepping from `settleCexState` the
settled signal IS emitted (`gridStopped` comes out true) although the
momentum is (1,0) before the step and (0.92,0) after the decay — never
zero. The momentum is applied to the target, leaving the stale-measured
distance at 1 ∈ (0.1, 2), so the snap branch fires `setGridStopped(true)`
with nonzero momentum, refuting "the signal is never emitted in a frame
step in which momentum is nonzero". -/
theorem Porto.C1_settled_signal_counterexample :
    ((Porto.physicsStep Porto.settleCexState).1.gridStopped = true) ∧
    ¬(Porto.settleCexState.momentum.x = 0 ∧ Porto.settleCexState.momentum.y = 0) ∧
    ¬((Porto.physicsStep Porto.settleCexState).1.momentum.x = 0 ∧
      (Porto.physicsStep Porto.settleCexState).1.momentum.y = 0) := by
  have hmp : Porto.momentumPhase Porto.settleCexState =
      { Porto.settleCexState with
          targetOffset := ⟨0 + 1, 0 + 0⟩, momentum := ⟨1 * Porto.damping, 0 * Porto.damping⟩ } := by
    apply Porto.momentumPhase_decay_moving
    · rfl
    · rfl
    · show Porto.stopThreshold < |(1 : ℝ)| + |(0 : ℝ)|
      rw [Porto.stopThreshold]
      norm_num
  have hd : Porto.engineDistance (Porto.momentumPhase Porto.settleCexState) = 1 := by
    rw [hmp]
    unfold Porto.engineDistance
    simp only [Porto.settleCexState]
    norm_num [Real.sqrt_one]
  refine ⟨?_, ?_, ?_⟩
  · show (Porto.settlePhase (Porto.momentumPhase Porto.settleCexState)
        (Porto.engineDistance (Porto.momentumPhase Porto.settleCexState))).gridStopped = true
    rw [Porto.settlePhase_gridStopped_iff, hd, hmp]
    right
    left
    refine ⟨rfl, by norm_num, by norm_num⟩
  · intro h
    have := h.1
    simp [Porto.settleCexState] at this
  · intro h
    have hx : (Porto.physicsStep Porto.settleCexState).1.momentum.x = 1 * Porto.damping := by
      show (Porto.settlePhase _ _).momentum.x = 1 * Porto.damping
      rw [Porto.settlePhase_momentum, hmp]
    rw [hx] at h
    have := h.1
    rw [Porto.damping] at this
    norm_num at this

/-- C1 (amended): with `gridStopped` clear before the frame, the frame
emits the settled signal if and only if, on the in-frame values (after the
momentum application/decay of the same frame), the engine is not dragging
and either the stale-measured distance lies strictly between 0.1 and 2
(the snap-to-target branch) or the post-decay momentum is exactly (0,0)
and that distance is at most 0.1. In particular the signal can be emitted
with nonzero momentum, via the snap branch. -/
theorem Porto.C1_settled_signal_amended (s : Porto.Engine) (h : s.gridStopped = false) :
    ((Porto.physicsStep s).1.gridStopped = true ↔
      ((Porto.momentumPhase s).isDragging = false ∧
        ((0.1 < Porto.engineDistance (Porto.momentumPhase s) ∧
          Porto.engineDistance (Porto.momentumPhase s) < 2) ∨
         (|(Porto.momentumPhase s).momentum.x| + |(Porto.momentumPhase s).momentum.y| = 0 ∧
          Porto.engineDistance (Porto.momentumPhase s) ≤ 0.1)))) := by
  have hg : (Porto.momentumPhase s).gridStopped = false := by
    rw [Porto.momentumPhase_gridStopped, h]
  show (Porto.settlePhase (Porto.momentumPhase s)
      (Porto.engineDistance (Porto.momentumPhase s))).gridStopped = true ↔ _
  rw [Porto.settlePhase_gridStopped_iff, hg]
  constructor
  · rintro (hfalse | ⟨ha, hb, hc⟩ | ⟨ha, hb, hc⟩)
    · exact absurd hfalse (by simp)
    · exact ⟨ha, Or.inl ⟨hc, hb⟩⟩
    · exact ⟨ha, Or.inr ⟨hb, hc⟩⟩
  · rintro ⟨ha, (⟨hb, hc⟩ | ⟨hb, hc⟩)⟩
    · exact Or.inr (Or.inl ⟨ha, hc, hb⟩)
    · exact Or.inr (Or.inr ⟨ha, hb, hc⟩)

/-- C1 witness: a resting state (momentum zero, camera on target, not
dragging, `gridStopped` clear) satisfies the amended condition through the
momentum-zero branch, so the frame emits the settled signal. -/
theorem Porto.C1_settled_signal_witness :
    (Porto.physicsStep
      (⟨⟨3, 4⟩, ⟨3, 4⟩, ⟨0, 0⟩, ⟨0, 0⟩, ⟨0, 0⟩, ⟨0, 0⟩, false, false, false, ⟨0, 0⟩, 0, 0,
        false⟩ : Porto.Engine)).1.gridStopped = true := by
  set s : Porto.Engine :=
    ⟨⟨3, 4⟩, ⟨3, 4⟩, ⟨0, 0⟩, ⟨0, 0⟩, ⟨0, 0⟩, ⟨0, 0⟩, false, false, false, ⟨0, 0⟩, 0, 0, false⟩
  have hmp : Porto.momentumPhase s = { s with momentum := ⟨0, 0⟩ } := by
    apply Porto.momentumPhase_small
    · rfl
    · show |(0 : ℝ)| + |(0 : ℝ)| ≤ Porto.stopThreshold
      rw [Porto.stopThreshold]
      norm_num
  rw [Porto.C1_settled_signal_amended s rfl, hmp]
  refine ⟨rfl, Or.inr ⟨by norm_num, ?_⟩⟩
  unfold Porto.engineDistance
  norm_num

namespace Porto

theorem physicsStep_isDragging (s : Engine) :
    (physicsStep s).1.isDragging = s.isDragging := by
  show (settlePhase _ _).isDragging = _
  rw [settlePhase_isDragging, momentumPhase_isDragging]

theorem physicsStep_isMoving (s : Engine) :
    (physicsStep s).1.isMoving = s.isMoving := by
  show (settlePhase _ _).isMoving = _
  rw [settlePhase_isMoving, momentumPhase_isMoving]

theorem physicsStep_momentum (s : Engine) :
    (physicsStep s).1.momentum = (momentumPhase s).momentum := by
  show (settlePhase _ _).momentum = _
  rw [settlePhase_momentum]

theorem physicsStep_lastUpdateTime (s : Engine) :
    (physicsStep s).1.lastUpdateTime = s.lastUpdateTime := by
  show (settlePhase _ _).lastUpdateTime = _
  rw [settlePhase_lastUpdateTime, momentumPhase_lastUpdateTime]

theorem physicsStep_isDirty (s : Engine) :
    (physicsStep s).1.isDirty = s.isDirty := by
  show (settlePhase _ _).isDirty = _
  rw [settlePhase_isDirty, momentumPhase_isDirty]

theorem damping_pos : (0 : ℝ) < damping := by rw [damping]; norm_num

theorem momentumPhase_mag_le (s : Engine) (h : s.isDragging = false) :
    |(momentumPhase s).momentum.x| + |(momentumPhase s).momentum.y| ≤
      damping * (|s.momentum.x| + |s.momentum.y|) := by
  by_cases hm : stopThreshold < |s.momentum.x| + |s.momentum.y|
  · by_cases hmov : s.isMoving = true
    · rw [momentumPhase_decay_moving s h hmov hm]
      simp only [abs_mul, abs_of_pos damping_pos]
      exact le_of_eq (by ring)
    · have hmov' : s.isMoving = false := by
        cases hb : s.isMoving
        · rfl
        · exact absurd hb hmov
      rw [momentumPhase_decay_idle s h hmov' hm]
      simp only [abs_mul]
      have h05 : |(0.5 : ℝ)| = 0.5 := by norm_num
      rw [h05, damping]
      have := abs_nonneg s.momentum.x
      have := abs_nonneg s.momentum.y
      nlinarith
  · rw [momentumPhase_small s h (not_lt.mp hm)]
    simp only [abs_zero, add_zero]
    have := abs_nonneg s.momentum.x
    have := abs_nonneg s.momentum.y
    nlinarith [damping_pos]

theorem stepIter_succ (n : ℕ) (s : Engine) :
    stepIter (n + 1) s = (physicsStep (stepIter n s)).1 := by
  unfold stepIter
  rw [Function.iterate_succ_apply']

theorem stepIter_isDragging (n : ℕ) (s : Engine) :
    (stepIter n s).isDragging = s.isDragging := by
  induction n with
  | zero => rfl
  | succ n ih => rw [stepIter_succ, physicsStep_isDragging, ih]

theorem stepIter_isMoving (n : ℕ) (s : Engine) :
    (stepIter n s).isMoving = s.isMoving := by
  induction n with
  | zero => rfl
  | succ n ih => rw [stepIter_succ, physicsStep_isMoving, ih]

theorem stepIter_mag_le (s : Engine) (h : s.isDragging = false) (n : ℕ) :
    |(stepIter n s).momentum.x| + |(stepIter n s).momentum.y| ≤
      damping ^ n * (|s.momentum.x| + |s.momentum.y|) := by
  induction n with
  | zero =>
    simp [stepIter]
  | succ n ih =>
    rw [stepIter_succ, physicsStep_momentum]
    have hdr : (stepIter n s).isDragging = false := by rw [stepIter_isDragging, h]
    calc |(momentumPhase (stepIter n s)).momentum.x| +
          |(momentumPhase (stepIter n s)).momentum.y|
        ≤ damping * (|(stepIter n s).momentum.x| + |(stepIter n s).momentum.y|) :=
          momentumPhase_mag_le _ hdr
      _ ≤ damping * (damping ^ n * (|s.momentum.x| + |s.momentum.y|)) :=
          mul_le_mul_of_nonneg_left ih damping_pos.le
      _ = damping ^ (n + 1) * (|s.momentum.x| + |s.momentum.y|) := by ring

theorem momentum_zero_after_small (s : Engine) (h : s.isDragging = false) (N : ℕ)
    (hN : |(stepIter N s).momentum.x| + |(stepIter N s).momentum.y| ≤ stopThreshold) :
    ∀ n : ℕ, N + 1 ≤ n →
      (stepIter n s).momentum.x = 0 ∧ (stepIter n s).momentum.y = 0 := by
  intro n hn
  induction n, hn using Nat.le_induction with
  | base =>
    rw [stepIter_succ, physicsStep_momentum,
      momentumPhase_small _ (by rw [stepIter_isDragging, h]) hN]
    exact ⟨rfl, rfl⟩
  | succ n hn ih =>
    rw [stepIter_succ, physicsStep_momentum,
      momentumPhase_small _ (by rw [stepIter_isDragging, h]) (by
        rw [ih.1, ih.2]
        simp only [abs_zero, add_zero]
        rw [stopThreshold]
        norm_num)]
    exact ⟨rfl, rfl⟩

/-- Exact rest: momentum is exactly (0,0) and the camera offset coincides
with the target offset. -/
def atRest (s : Engine) : Prop :=
  s.momentum.x = 0 ∧ s.momentum.y = 0 ∧
  s.cameraOffset.x = s.targetOffset.x ∧ s.cameraOffset.y = s.targetOffset.y

theorem physicsStep_rest (s : Engine) (h : s.isDragging = false) (hr : atRest s) :
    atRest (physicsStep s).1 := by
  obtain ⟨hm1, hm2, hc1, hc2⟩ := hr
  have hmp : momentumPhase s = { s with momentum := ⟨0, 0⟩ } := by
    apply momentumPhase_small s h
    rw [hm1, hm2]
    simp only [abs_zero, add_zero]
    rw [stopThreshold]
    norm_num
  have hd : engineDistance (momentumPhase s) = 0 := by
    rw [hmp]
    unfold engineDistance
    show Real.sqrt ((s.targetOffset.x - s.cameraOffset.x) ^ 2 +
      (s.targetOffset.y - s.cameraOffset.y) ^ 2) = 0
    rw [hc1, hc2]
    simp
  have hns : ¬((momentumPhase s).isDragging = false ∧
      engineDistance (momentumPhase s) < 2 ∧ 0.1 < engineDistance (momentumPhase s)) := by
    rw [hd]
    intro hcon
    norm_num at hcon
  obtain ⟨ht, hcx, hcy⟩ := settlePhase_nosnap (momentumPhase s) (engineDistance (momentumPhase s)) hns
  have hm : (physicsStep s).1.momentum = ⟨0, 0⟩ := by
    rw [physicsStep_momentum, hmp]
  have hmpc : (momentumPhase s).cameraOffset = s.cameraOffset := momentumPhase_cameraOffset s
  have hmpt : (momentumPhase s).targetOffset = s.targetOffset := by rw [hmp]
  refine ⟨by rw [hm], by rw [hm], ?_, ?_⟩
  · show (settlePhase (momentumPhase s) (engineDistance (momentumPhase s))).cameraOffset.x = _
    rw [hcx]
    show _ = (settlePhase (momentumPhase s) (engineDistance (momentumPhase s))).targetOffset.x
    rw [ht, hmpc, hmpt, hc1]
    ring
  · show (settlePhase (momentumPhase s) (engineDistance (momentumPhase s))).cameraOffset.y = _
    rw [hcy]
    show _ = (settlePhase (momentumPhase s) (engineDistance (momentumPhase s))).targetOffset.y
    rw [ht, hmpc, hmpt, hc2]
    ring

end Porto

/-- C2 (amended): from any non-dragging state, the momentum reaches exactly
(0,0) within a bounded number of frames and stays there, and the full rest
state (momentum zero, cameraOffset equal to targetOffset), once attained,
is preserved by every subsequent frame. (The camera/target coincidence
itself need not ever be attained — see the counterexample.) -/
theorem Porto.C2_momentum_convergence_amended (s : Porto.Engine)
    (h : s.isDragging = false) :
    (∃ N : ℕ, ∀ n : ℕ, N ≤ n →
      (Porto.stepIter n s).momentum.x = 0 ∧ (Porto.stepIter n s).momentum.y = 0) ∧
    (Porto.atRest s → ∀ n : ℕ, Porto.atRest (Porto.stepIter n s)) := by
  constructor
  · set a := |s.momentum.x| + |s.momentum.y| with ha
    have ha0 : 0 ≤ a := by positivity
    have hlt : Porto.damping < 1 := by rw [Porto.damping]; norm_num
    obtain ⟨M, hM⟩ := exists_pow_lt_of_lt_one
      (show (0 : ℝ) < Porto.stopThreshold / (a + 1) by
        rw [Porto.stopThreshold]; positivity) hlt
    have hmag : |(Porto.stepIter M s).momentum.x| + |(Porto.stepIter M s).momentum.y| ≤
        Porto.stopThreshold := by
      have h1 := Porto.stepIter_mag_le s h M
      have h2 : Porto.damping ^ M * (a + 1) < Porto.stopThreshold :=
        (lt_div_iff (by positivity)).mp hM
      nlinarith [pow_nonneg Porto.damping_pos.le M]
    exact ⟨M + 1, Porto.momentum_zero_after_small s h M hmag⟩
  · intro hr n
    induction n with
    | zero => exact hr
    | succ n ih =>
      rw [Porto.stepIter_succ]
      exact Porto.physicsStep_rest _ (by rw [Porto.stepIter_isDragging, h]) ih

/-- C2 witness: the amended theorem applied to the concrete non-dragging
state `settleCexState` (momentum (1,0)). -/
theorem Porto.C2_momentum_convergence_witness :
    (∃ N : ℕ, ∀ n : ℕ, N ≤ n →
      (Porto.stepIter n Porto.settleCexState).momentum.x = 0 ∧
      (Porto.stepIter n Porto.settleCexState).momentum.y = 0) ∧
    (Porto.atRest Porto.settleCexState →
      ∀ n : ℕ, Porto.atRest (Porto.stepIter n Porto.settleCexState)) :=
  Porto.C2_momentum_convergence_amended Porto.settleCexState rfl

namespace Porto

/-- A zero-momentum state whose camera sits 0.05px short of the target:
inside the `distance ≤ 0.1` dead zone, where neither the snap branch nor
the easing can ever close the gap exactly. -/
noncomputable def driftState : Engine :=
  ⟨⟨0, 0⟩, ⟨1/20, 0⟩, ⟨0, 0⟩, ⟨0, 0⟩, ⟨0, 0⟩, ⟨0, 0⟩, false, false, false, ⟨0, 0⟩, 0, 0, false⟩

/-- Invariant along the `driftState` trajectory: momentum stays zero, the
target stays at (1/20, 0), the camera stays on the x-axis strictly to the
left of the target but not left of the origin. -/
def driftInv (t : Engine) : Prop :=
  t.isDragging = false ∧ t.momentum.x = 0 ∧ t.momentum.y = 0 ∧
  t.targetOffset.x = 1 / 20 ∧ t.targetOffset.y = 0 ∧ t.cameraOffset.y = 0 ∧
  0 ≤ t.cameraOffset.x ∧ t.cameraOffset.x < 1 / 20

theorem driftInv_step (t : Engine) (ht : driftInv t) : driftInv (physicsStep t).1 := by
  obtain ⟨h1, h2, h3, h4, h5, h6, h7, h8⟩ := ht
  have hmp : momentumPhase t = { t with momentum := ⟨0, 0⟩ } := by
    apply momentumPhase_small t h1
    rw [h2, h3]
    simp only [abs_zero, add_zero]
    rw [stopThreshold]
    norm_num
  have hd : engineDistance (momentumPhase t) = t.targetOffset.x - t.cameraOffset.x := by
    rw [hmp]
    exact engineDistance_of_aligned _ (by rw [h5, h6]) (by rw [h4]; exact h8.le)
  have hδpos : 0 < t.targetOffset.x - t.cameraOffset.x := by rw [h4]; linarith
  have hδsmall : t.targetOffset.x - t.cameraOffset.x ≤ 1 / 20 := by rw [h4]; linarith
  have hns : ¬((momentumPhase t).isDragging = false ∧
      engineDistance (momentumPhase t) < 2 ∧ 0.1 < engineDistance (momentumPhase t)) := by
    rw [hd]
    rintro ⟨-, -, hgt⟩
    linarith
  obtain ⟨htar, hcx, hcy⟩ := settlePhase_nosnap (momentumPhase t)
    (engineDistance (momentumPhase t)) hns
  have hmpc : (momentumPhase t).cameraOffset = t.cameraOffset := momentumPhase_cameraOffset t
  have hmpt : (momentumPhase t).targetOffset = t.targetOffset := by rw [hmp]
  set σ := smoothingFactor *
    (1 + min 1 (engineDistance (momentumPhase t) / 500)) with hσ
  have hσpos : 0 < σ := by
    rw [hσ, smoothingFactor]
    have hmin : (0 : ℝ) ≤ min 1 (engineDistance (momentumPhase t) / 500) := by
      apply le_min
      · norm_num
      · rw [hd]; positivity
    nlinarith
  have hσlt : σ < 1 := by
    rw [hσ, smoothingFactor]
    have hmin : min 1 (engineDistance (momentumPhase t) / 500) ≤ 1 := min_le_left _ _
    nlinarith
  have hstep : (physicsStep t).1.cameraOffset.x =
      t.cameraOffset.x + (t.targetOffset.x - t.cameraOffset.x) * σ := by
    show (settlePhase (momentumPhase t) (engineDistance (momentumPhase t))).cameraOffset.x = _
    rw [hcx, hmpc, hmpt]
  have hstepy : (physicsStep t).1.cameraOffset.y = 0 := by
    show (settlePhase (momentumPhase t) (engineDistance (momentumPhase t))).cameraOffset.y = 0
    rw [hcy, hmpc, hmpt, h6, h5]
    ring
  have hsteptar : (physicsStep t).1.targetOffset = t.targetOffset := by
    show (settlePhase (momentumPhase t) (engineDistance (momentumPhase t))).targetOffset = _
    rw [htar, hmpt]
  refine ⟨?_, ?_, ?_, ?_, ?_, hstepy, ?_, ?_⟩
  · rw [physicsStep_isDragging, h1]
  · rw [physicsStep_momentum, hmp]
  · rw [physicsStep_momentum, hmp]
  · rw [hsteptar, h4]
  · rw [hsteptar, h5]
  · rw [hstep]
    nlinarith
  · rw [hstep, h4]
    nlinarith

end Porto

/-- C2 counterexample: the claim as stated is false. From the non-dragging
state `driftState` (momentum already exactly zero, camera 0.05px short of
the target) the per-frame easing multiplies the gap by 1 − smoothing each
frame, the snap branch never fires because the distance stays below 0.1,
and the camera never becomes exactly equal to the target — exact rest is
never reached, in any number of frames. -/
theorem Porto.C2_momentum_convergence_counterexample :
    ¬(∀ s : Porto.Engine, s.isDragging = false →
        ∃ N : ℕ, ∀ n : ℕ, N ≤ n → Porto.atRest (Porto.stepIter n s)) := by
  intro hall
  obtain ⟨N, hN⟩ := hall Porto.driftState rfl
  have hinv : ∀ n : ℕ, Porto.driftInv (Porto.stepIter n Porto.driftState) := by
    intro n
    induction n with
    | zero =>
      refine ⟨rfl, rfl, rfl, rfl, rfl, rfl, le_refl _, ?_⟩
      show Porto.driftState.cameraOffset.x < 1 / 20
      norm_num [Porto.driftState]
    | succ n ih =>
      rw [Porto.stepIter_succ]
      exact Porto.driftInv_step _ ih
  obtain ⟨-, -, hcx, -⟩ := hN N (le_refl N)
  obtain ⟨-, -, -, h4, -, -, -, h8⟩ := hinv N
  rw [h4] at hcx
  rw [hcx] at h8
  exact absurd h8 (lt_irrefl _)

namespace Porto

theorem dirtyStep_spec (now distance : ℝ) (s : Engine) (h : s.isDirty = false) :
    ((dirtyStep now distance s).2 = true ↔
      (200 < |distance| ∧ 100 < now - s.lastUpdateTime)) ∧
    ((200 < |distance| ∧ 100 < now - s.lastUpdateTime) →
      (dirtyStep now distance s).1.lastUpdateTime = now) := by
  simp only [dirtyStep]
  by_cases hc : 200 < |distance| ∧ 100 < now - s.lastUpdateTime <;>
    simp [hc, h]

theorem dirtyStep_cameraOffset (now distance : ℝ) (s : Engine) :
    (dirtyStep now distance s).1.cameraOffset = s.cameraOffset := by
  simp only [dirtyStep]
  repeat' split
  all_goals rfl

/-- The engine state used for the recomputation-trigger scenario: a
recomputation has just happened (`lastUpdateTime = 0`, camera at the
origin), the user is dragging with the pointer at the origin. -/
noncomputable def dragTraceStart : Engine :=
  ⟨⟨0, 0⟩, ⟨0, 0⟩, ⟨0, 0⟩, ⟨0, 0⟩, ⟨0, 0⟩, ⟨0, 0⟩, true, true, false, ⟨0, 0⟩, 0, 0, false⟩

theorem dragTrace_move : handleMouseMove 10 300 0 dragTraceStart =
    ⟨⟨0, 0⟩, ⟨300, 0⟩, ⟨15, 0⟩, ⟨300, 0⟩, ⟨0, 0⟩, ⟨0, 0⟩, true, true, false,
      ⟨300, 0⟩, 10, 0, false⟩ := by
  simp only [handleMouseMove, updateVelocity, dragTraceStart]
  norm_num [momentumStrength]

theorem dragTrace_frame_parts :
    (physicsStep (handleMouseMove 10 300 0 dragTraceStart)).2 = 300 ∧
    (physicsStep (handleMouseMove 10 300 0 dragTraceStart)).1.cameraOffset.x = 48 / 5 ∧
    (physicsStep (handleMouseMove 10 300 0 dragTraceStart)).1.cameraOffset.y = 0 ∧
    (physicsStep (handleMouseMove 10 300 0 dragTraceStart)).1.lastUpdateTime = 0 ∧
    (physicsStep (handleMouseMove 10 300 0 dragTraceStart)).1.isDirty = false := by
  rw [dragTrace_move]
  set s1 : Engine := ⟨⟨0, 0⟩, ⟨300, 0⟩, ⟨15, 0⟩, ⟨300, 0⟩, ⟨0, 0⟩, ⟨0, 0⟩, true, true, false,
      ⟨300, 0⟩, 10, 0, false⟩ with hs1
  have hmp : momentumPhase s1 = s1 := momentumPhase_dragging s1 rfl
  have hd : engineDistance (momentumPhase s1) = 300 := by
    rw [hmp]
    have := engineDistance_of_aligned s1 (by norm_num [hs1]) (by norm_num [hs1])
    rw [this]
    norm_num [hs1]
  have hns : ¬((momentumPhase s1).isDragging = false ∧
      engineDistance (momentumPhase s1) < 2 ∧ 0.1 < engineDistance (momentumPhase s1)) := by
    rw [hmp]
    rintro ⟨hfalse, -⟩
    simp [hs1] at hfalse
  obtain ⟨htar, hcx, hcy⟩ := settlePhase_nosnap (momentumPhase s1)
    (engineDistance (momentumPhase s1)) hns
  have hσ : smoothingFactor * (1 + min 1 (engineDistance (momentumPhase s1) / 500))
      = 4 / 125 := by
    rw [hd, smoothingFactor]
    rw [min_eq_right (by norm_num : (300 : ℝ) / 500 ≤ 1)]
    norm_num
  refine ⟨hd, ?_, ?_, ?_, ?_⟩
  · show (settlePhase (momentumPhase s1) (engineDistance (momentumPhase s1))).cameraOffset.x = _
    rw [hcx, hσ, hmp]
    norm_num [hs1]
  · show (settlePhase (momentumPhase s1) (engineDistance (momentumPhase s1))).cameraOffset.y = _
    rw [hcy, hσ, hmp]
    norm_num [hs1]
  · exact physicsStep_lastUpdateTime s1
  · exact physicsStep_isDirty s1

end Porto

/-- C5 counterexample: the frame-loop trigger tests the instantaneous
target-to-camera distance, not the cumulative camera movement since the
last recomputation. Starting right after a recomputation (lastUpdateTime
0, camera at the origin), a single 300px drag-move followed by one frame
at t = 150ms fires a recomputation although the camera has moved only
9.6px in total since the last one — refuting "a recomputation is
triggered only when cumulative camera movement exceeds 200px". -/
theorem Porto.C5_recompute_trigger_counterexample :
    ((Porto.animate 150 (Porto.handleMouseMove 10 300 0 Porto.dragTraceStart)).2 = true) ∧
    (|(Porto.animate 150 (Porto.handleMouseMove 10 300 0 Porto.dragTraceStart)).1.cameraOffset.x -
        Porto.dragTraceStart.cameraOffset.x| +
      |(Porto.animate 150 (Porto.handleMouseMove 10 300 0 Porto.dragTraceStart)).1.cameraOffset.y -
        Porto.dragTraceStart.cameraOffset.y| ≤ 200) := by
  obtain ⟨hd, hcx, hcy, hlu, hdirty⟩ := Porto.dragTrace_frame_parts
  constructor
  · show (Porto.dirtyStep 150 (Porto.physicsStep _).2 (Porto.physicsStep _).1).2 = true
    rw [(Porto.dirtyStep_spec 150 _ _ hdirty).1, hd, hlu]
    constructor
    · norm_num
    · norm_num
  · simp only [Porto.animate]
    rw [Porto.dirtyStep_cameraOffset, hcx, hcy]
    norm_num [Porto.dragTraceStart]
    rw [abs_of_nonneg (by norm_num : (0 : ℝ) ≤ 48 / 5)]
    norm_num

/-- C5 (amended): with the dirty flag clear, a frame at wall-clock `now`
runs `updateVisibleItems` if and only if the distance between targetOffset
and cameraOffset measured in that frame (after momentum application,
before easing) exceeds 200px and more than 100ms have elapsed since
`lastUpdateTime`; on firing, `lastUpdateTime` is stamped to `now` (so
triggers are at least 100ms apart). Cumulative camera movement plays no
role. -/
theorem Porto.C5_recompute_trigger_amended (now : ℝ) (s : Porto.Engine)
    (h : s.isDirty = false) :
    ((Porto.animate now s).2 = true ↔
      (200 < |Porto.engineDistance (Porto.momentumPhase s)| ∧
        100 < now - s.lastUpdateTime)) ∧
    (((Porto.animate now s).2 = true) → (Porto.animate now s).1.lastUpdateTime = now) := by
  have hdirty : (Porto.physicsStep s).1.isDirty = false := by
    rw [Porto.physicsStep_isDirty, h]
  have hlu : (Porto.physicsStep s).1.lastUpdateTime = s.lastUpdateTime :=
    Porto.physicsStep_lastUpdateTime s
  have hspec := Porto.dirtyStep_spec now (Porto.physicsStep s).2 (Porto.physicsStep s).1 hdirty
  rw [hlu] at hspec
  constructor
  · exact hspec.1
  · intro htrig
    exact hspec.2 (hspec.1.mp htrig)

/-- C5 witness: in the concrete drag trace the distance is 300 > 200 and
150ms > 100ms have elapsed, so the amended characterisation fires the
recomputation. -/
theorem Porto.C5_recompute_trigger_witness :
    (Porto.animate 150 (Porto.handleMouseMove 10 300 0 Porto.dragTraceStart)).2 = true := by
  obtain ⟨hd, -, -, -, hdirty⟩ := Porto.dragTrace_frame_parts
  have h0 : (Porto.handleMouseMove 10 300 0 Porto.dragTraceStart).isDirty = false := by
    rw [Porto.dragTrace_move]
  have h1 : (Porto.handleMouseMove 10 300 0 Porto.dragTraceStart).lastUpdateTime = 0 := by
    rw [Porto.dragTrace_move]
  apply (Porto.C5_recompute_trigger_amended 150
    (Porto.handleMouseMove 10 300 0 Porto.dragTraceStart) h0).1.mpr
  have hd' : Porto.engineDistance
      (Porto.momentumPhase (Porto.handleMouseMove 10 300 0 Porto.dragTraceStart)) = 300 := hd
  rw [hd', h1]
  constructor
  · norm_num
  · norm_num

namespace Porto

/-- The engine's initial state (all refs zero, not dragging). -/
noncomputable def engine0 : Engine :=
  ⟨⟨0, 0⟩, ⟨0, 0⟩, ⟨0, 0⟩, ⟨0, 0⟩, ⟨0, 0⟩, ⟨0, 0⟩, false, false, false, ⟨0, 0⟩, 0, 0, false⟩

/-- Scenario B: press at the origin, three 100px moves at t = 10, 20, 30,
release at t = 40 (within `moveThreshold` of the last move). -/
noncomputable def scenarioB : Engine :=
  handleMouseUp 40 (handleMouseMove 30 300 0 (handleMouseMove 20 200 0
    (handleMouseMove 10 100 0 (handleMouseDown 0 0 0 engine0))))

theorem scenarioB_eval : scenarioB =
    ⟨⟨0, 0⟩, ⟨300, 0⟩, ⟨10, 0⟩, ⟨100, 0⟩, ⟨100, 0⟩, ⟨100, 0⟩, false, true, false,
      ⟨300, 0⟩, 30, 0, false⟩ := by
  have e1 : handleMouseDown 0 0 0 engine0 =
      ⟨⟨0, 0⟩, ⟨0, 0⟩, ⟨0, 0⟩, ⟨0, 0⟩, ⟨0, 0⟩, ⟨0, 0⟩, true, true, false, ⟨0, 0⟩, 0, 0,
        false⟩ := by
    simp only [handleMouseDown, engine0]
  have e2 : handleMouseMove 10 100 0 (⟨⟨0, 0⟩, ⟨0, 0⟩, ⟨0, 0⟩, ⟨0, 0⟩, ⟨0, 0⟩, ⟨0, 0⟩,
      true, true, false, ⟨0, 0⟩, 0, 0, false⟩ : Engine) =
      ⟨⟨0, 0⟩, ⟨100, 0⟩, ⟨5, 0⟩, ⟨100, 0⟩, ⟨0, 0⟩, ⟨0, 0⟩, true, true, false, ⟨100, 0⟩, 10, 0,
        false⟩ := by
    simp only [handleMouseMove, updateVelocity]
    norm_num [momentumStrength]
  have e3 : handleMouseMove 20 200 0 (⟨⟨0, 0⟩, ⟨100, 0⟩, ⟨5, 0⟩, ⟨100, 0⟩, ⟨0, 0⟩, ⟨0, 0⟩,
      true, true, false, ⟨100, 0⟩, 10, 0, false⟩ : Engine) =
      ⟨⟨0, 0⟩, ⟨200, 0⟩, ⟨8333 / 1000, 0⟩, ⟨100, 0⟩, ⟨100, 0⟩, ⟨0, 0⟩, true, true, false,
        ⟨200, 0⟩, 20, 0, false⟩ := by
    simp only [handleMouseMove, updateVelocity]
    norm_num [momentumStrength]
  have e4 : handleMouseMove 30 300 0 (⟨⟨0, 0⟩, ⟨200, 0⟩, ⟨8333 / 1000, 0⟩, ⟨100, 0⟩,
      ⟨100, 0⟩, ⟨0, 0⟩, true, true, false, ⟨200, 0⟩, 20, 0, false⟩ : Engine) =
      ⟨⟨0, 0⟩, ⟨300, 0⟩, ⟨10, 0⟩, ⟨100, 0⟩, ⟨100, 0⟩, ⟨100, 0⟩, true, true, false,
        ⟨300, 0⟩, 30, 0, false⟩ := by
    simp only [handleMouseMove, updateVelocity]
    norm_num [momentumStrength]
  have e5 : handleMouseUp 40 (⟨⟨0, 0⟩, ⟨300, 0⟩, ⟨10, 0⟩, ⟨100, 0⟩, ⟨100, 0⟩, ⟨100, 0⟩,
      true, true, false, ⟨300, 0⟩, 30, 0, false⟩ : Engine) =
      ⟨⟨0, 0⟩, ⟨300, 0⟩, ⟨10, 0⟩, ⟨100, 0⟩, ⟨100, 0⟩, ⟨100, 0⟩, false, true, false,
        ⟨300, 0⟩, 30, 0, false⟩ := by
    simp only [handleMouseUp, moveThreshold]
    norm_num
  show handleMouseUp 40 (handleMouseMove 30 300 0 (handleMouseMove 20 200 0
    (handleMouseMove 10 100 0 (handleMouseDown 0 0 0 engine0)))) = _
  rw [e1, e2, e3, e4, e5]

end Porto

namespace Porto

set_option maxRecDepth 10000 in
theorem scenarioB_decay (k : ℕ) (hk : k ≤ 47) :
    (stepIter k scenarioB).momentum.x = 10 * damping ^ k ∧
    (stepIter k scenarioB).momentum.y = 0 := by
  induction k with
  | zero =>
    constructor
    · show scenarioB.momentum.x = _
      rw [scenarioB_eval]
      norm_num
    · show scenarioB.momentum.y = _
      rw [scenarioB_eval]
  | succ n ih =>
    obtain ⟨ihx, ihy⟩ := ih (by omega)
    have hdr : (stepIter n scenarioB).isDragging = false := by
      rw [stepIter_isDragging, scenarioB_eval]
    have hmov : (stepIter n scenarioB).isMoving = true := by
      rw [stepIter_isMoving, scenarioB_eval]
    have hmag : stopThreshold <
        |(stepIter n scenarioB).momentum.x| + |(stepIter n scenarioB).momentum.y| := by
      rw [ihx, ihy]
      simp only [abs_zero, add_zero]
      rw [abs_of_pos (mul_pos (by norm_num) (pow_pos damping_pos n)), stopThreshold]
      have hpow : damping ^ 46 ≤ damping ^ n := by
        apply pow_le_pow_of_le_one damping_pos.le
        · rw [damping]; norm_num
        · omega
      have h46 : (0.02 : ℝ) < damping ^ 46 := by
        rw [damping]
        norm_num
      linarith
    have hstep := momentumPhase_decay_moving (stepIter n scenarioB) hdr hmov hmag
    rw [stepIter_succ, physicsStep_momentum, hstep]
    constructor
    · show (stepIter n scenarioB).momentum.x * damping = _
      rw [ihx]
      ring
    · show (stepIter n scenarioB).momentum.y * damping = _
      rw [ihy]
      ring

set_option maxRecDepth 10000 in
theorem scenarioB_stop :
    (stepIter 48 scenarioB).momentum.x = 0 ∧ (stepIter 48 scenarioB).momentum.y = 0 := by
  obtain ⟨h47x, h47y⟩ := scenarioB_decay 47 (le_refl 47)
  have hdr : (stepIter 47 scenarioB).isDragging = false := by
    rw [stepIter_isDragging, scenarioB_eval]
  have hmag : |(stepIter 47 scenarioB).momentum.x| + |(stepIter 47 scenarioB).momentum.y| ≤
      stopThreshold := by
    rw [h47x, h47y]
    simp only [abs_zero, add_zero]
    rw [abs_of_pos (mul_pos (by norm_num) (pow_pos damping_pos 47)), stopThreshold, damping]
    norm_num
  have := momentumPhase_small (stepIter 47 scenarioB) hdr hmag
  rw [show (48 : ℕ) = 47 + 1 from rfl, stepIter_succ, physicsStep_momentum, this]
  exact ⟨rfl, rfl⟩

end Porto

set_option maxRecDepth 10000 in
/-- C7: after drag deltas (100,0),(100,0),(100,0) and a release that keeps
the gesture live (40ms − 30ms ≤ 60ms, so `handleMouseUp` does not zero the
momentum), the momentum is exactly (10,0) = ((100·0.1667 + 100·0.3333 +
100·0.5)·0.10, 0); each subsequent not-dragging, still-`moving` frame
multiplies it by 0.92, so after k ≤ 47 frames it is (10·0.92^k, 0); frame
47 is the first whose result has L1 magnitude ≤ 0.2, and the following
frame snaps it to exactly (0,0). -/
theorem Porto.C7_scenarioB_momentum (k : ℕ) (hk : k ≤ 47) :
    Porto.scenarioB.momentum.x = (100 * 0.1667 + 100 * 0.3333 + 100 * 0.5) * 0.10 ∧
    Porto.scenarioB.momentum.x = 10 ∧ Porto.scenarioB.momentum.y = 0 ∧
    (Porto.stepIter k Porto.scenarioB).momentum.x = 10 * Porto.damping ^ k ∧
    (Porto.stepIter k Porto.scenarioB).momentum.y = 0 ∧
    |10 * Porto.damping ^ 47| + |(0 : ℝ)| ≤ Porto.stopThreshold ∧
    Porto.stopThreshold < |10 * Porto.damping ^ 46| + |(0 : ℝ)| ∧
    (Porto.stepIter 48 Porto.scenarioB).momentum.x = 0 ∧
    (Porto.stepIter 48 Porto.scenarioB).momentum.y = 0 := by
  obtain ⟨hx, hy⟩ := Porto.scenarioB_decay k hk
  obtain ⟨hsx, hsy⟩ := Porto.scenarioB_stop
  refine ⟨?_, ?_, ?_, hx, hy, ?_, ?_, hsx, hsy⟩
  · rw [Porto.scenarioB_eval]
    norm_num
  · rw [Porto.scenarioB_eval]
  · rw [Porto.scenarioB_eval]
  · simp only [abs_zero, add_zero]
    rw [abs_of_pos (mul_pos (by norm_num) (pow_pos Porto.damping_pos 47)),
      Porto.stopThreshold, Porto.damping]
    norm_num
  · simp only [abs_zero, add_zero]
    rw [abs_of_pos (mul_pos (by norm_num) (pow_pos Porto.damping_pos 46)),
      Porto.stopThreshold, Porto.damping]
    norm_num

/-- C7 witness: the theorem instantiated at the last pre-stop frame k = 47. -/
theorem Porto.C7_scenarioB_momentum_witness :
    (Porto.stepIter 47 Porto.scenarioB).momentum.x = 10 * Porto.damping ^ 47 ∧
    (Porto.stepIter 48 Porto.scenarioB).momentum.x = 0 :=
  ⟨(Porto.C7_scenarioB_momentum 47 (by norm_num)).2.2.2.1,
   (Porto.C7_scenarioB_momentum 47 (by norm_num)).2.2.2.2.2.2.2.1⟩

namespace Porto

/-! ### Tile Focus Controller (`GridItemContainer.tsx`).

Each mounted `GridItemContainer` owns `isFixed`, `isAnimating`,
`pendingClose`, a pending 500ms reset timeout, and the `hasMoved` /
`isPointerDown` click-vs-drag guards; `clickedItemId` and `gridStopped`
live in the shared `DragContext`. While any tile has `isFixed`, that tile
renders a full-screen `Overlay` (`position: fixed`, `zIndex 999`,
`pointerEvents: auto`) through a portal and its own grid container div is
unmounted, so pointer and click events on every tile are intercepted: an
event reaches a tile's handlers only when no tile is fixed. The event
dispatch below encodes exactly that. -/

structure TileState where
  isFixed : Bool
  isAnimating : Bool
  pendingClose : Bool
  hasMoved : Bool
  isPointerDown : Bool
  closeArmed : Bool
deriving DecidableEq

/-- A freshly mounted tile. -/
def idleTile : TileState := ⟨false, false, false, false, false, false⟩

/-- `handleClick`: ignore the click when the pointer moved beyond the 5px
threshold (resetting `hasMoved`) or is still down; otherwise, when not yet
fixed, capture the rect, fix the tile and start the enlarge animation (the
source starts it on the next animation frame). -/
def handleClick (t : TileState) : TileState :=
  if t.hasMoved then { t with hasMoved := false }
  else if t.isPointerDown then t
  else if t.isFixed = false then { t with isFixed := true, isAnimating := true }
  else t

/-- `handleOverlayClick`: when the grid has stopped, start the close
animation and arm the 500ms reset timeout; otherwise record a pending
close. -/
def handleOverlayClick (gridStopped : Bool) (t : TileState) : TileState :=
  if gridStopped then { t with isAnimating := false, closeArmed := true }
  else { t with pendingClose := true }

/-- The `[pendingClose, gridStopped]` effect: once the grid stops with a
close pending, start the close animation and arm the reset timeout. -/
def pendingCloseEffect (t : TileState) : TileState :=
  if t.pendingClose then { t with isAnimating := false, closeArmed := true }
  else t

/-- The body of the 500ms close timeout: unfix the tile and clear the
pending flags. -/
def closeTimerFire (t : TileState) : TileState :=
  if t.closeArmed then { t with isFixed := false, closeArmed := false, pendingClose := false }
  else t

/-- The mounted tiles (id → state), the shared `clickedItemId` and
`gridStopped` context values. -/
structure FocusSys where
  tiles : List (ℕ × TileState)
  clickedItemId : Option ℕ
  gridStopped : Bool
deriving DecidableEq

/-- Some tile is fixed, i.e. its full-screen overlay is mounted. -/
def overlayActive (sys : FocusSys) : Bool :=
  sys.tiles.any fun p => p.2.isFixed

/-- Apply `f` to the tile with id `i`. -/
def updTile (i : ℕ) (f : TileState → TileState) (l : List (ℕ × TileState)) :
    List (ℕ × TileState) :=
  l.map fun p => if p.1 == i then (p.1, f p.2) else p

/-- The user-interface events the controller reacts to. `pointerMove`'s
flag records whether the move took the pointer more than 5px from its
down position. -/
inductive FocusEvent where
  | pointerDown (i : ℕ)
  | pointerMove (i : ℕ) (beyond5px : Bool)
  | pointerUp (i : ℕ)
  | clickTile (i : ℕ)
  | overlayClick
  | closeTimer (i : ℕ)
  | gridStop (b : Bool)
deriving DecidableEq

/-- One controller transition. Pointer and click events on tiles are
dispatched only when no overlay is up (see the section comment); the
overlay click goes to the fixed tile(s); `gridStop true` replays the
pending-close effect; a close timeout fires on its armed tile and clears
`clickedItemId`. -/
def focusStep (e : FocusEvent) (sys : FocusSys) : FocusSys :=
  match e with
  | .pointerDown i =>
    if overlayActive sys then sys
    else
      { sys with
          tiles := updTile i (fun t => { t with isPointerDown := true, hasMoved := false })
                     sys.tiles }
  | .pointerMove i beyond5px =>
    if overlayActive sys then sys
    else
      { sys with
          tiles := updTile i
                     (fun t =>
                       if t.isPointerDown && beyond5px then { t with hasMoved := true } else t)
                     sys.tiles }
  | .pointerUp i =>
    if overlayActive sys then sys
    else { sys with tiles := updTile i (fun t => { t with isPointerDown := false }) sys.tiles }
  | .clickTile i =>
    if overlayActive sys then sys
    else
      match sys.tiles.lookup i with
      | none => sys
      | some t =>
        if t.hasMoved || t.isPointerDown || t.isFixed then
          { sys with tiles := updTile i handleClick sys.tiles }
        else
          { sys with tiles := updTile i handleClick sys.tiles, clickedItemId := some i }
  | .overlayClick =>
    { sys with tiles := sys.tiles.map fun p =>
        if p.2.isFixed then (p.1, handleOverlayClick sys.gridStopped p.2) else p }
  | .closeTimer i =>
    match sys.tiles.lookup i with
    | none => sys
    | some t =>
      if t.closeArmed then
        { sys with tiles := updTile i closeTimerFire sys.tiles, clickedItemId := none }
      else sys
  | .gridStop b =>
    if b then
      { sys with gridStopped := true,
                 tiles := sys.tiles.map fun p => (p.1, pendingCloseEffect p.2) }
    else { sys with gridStopped := false }

/-- Run an event trace. -/
def focusRun (evts : List FocusEvent) (sys : FocusSys) : FocusSys :=
  evts.foldl (fun s e => focusStep e s) sys

/-- All tiles idle, nothing clicked, grid not yet settled. -/
def initFocusSys (ids : List ℕ) : FocusSys :=
  ⟨ids.map fun i => (i, idleTile), none, false⟩

/-- Any two fixed (opening/open/closing) entries carry the same tile id. -/
def atMostOneFocused (sys : FocusSys) : Prop :=
  ∀ p ∈ sys.tiles, ∀ q ∈ sys.tiles, p.2.isFixed = true → q.2.isFixed = true → p.1 = q.1

theorem focusStep_atMostOne (e : FocusEvent) (sys : FocusSys)
    (h : atMostOneFocused sys) : atMostOneFocused (focusStep e sys) := by
  have hfix : ∀ (g : TileState → TileState),
      (∀ t : TileState, (g t).isFixed = true → t.isFixed = true) →
      atMostOneFocused { sys with tiles := sys.tiles.map fun p =>
        if p.2.isFixed then (p.1, g p.2) else p } := by
    intro g hg p hp q hq hpf hqf
    simp only [List.mem_map] at hp hq
    obtain ⟨p0, hp0, hpe⟩ := hp
    obtain ⟨q0, hq0, hqe⟩ := hq
    have hp1 : p.1 = p0.1 ∧ p0.2.isFixed = true := by
      by_cases hc : p0.2.isFixed = true
      · rw [← hpe]
        simp [hc]
      · rw [← hpe]
        simp only [hc]
        simp only [Bool.not_eq_true] at hc
        rw [if_neg (by simp [hc])]
        rw [← hpe, if_neg (by simp [hc])] at hpf
        exact absurd hpf (by simp [hc])
    have hq1 : q.1 = q0.1 ∧ q0.2.isFixed = true := by
      by_cases hc : q0.2.isFixed = true
      · rw [← hqe]
        simp [hc]
      · simp only [Bool.not_eq_true] at hc
        rw [← hqe, if_neg (by simp [hc])] at hqf
        exact absurd hqf (by simp [hc])
    rw [hp1.1, hq1.1]
    exact h p0 hp0 q0 hq0 hp1.2 hq1.2
  have hupd : ∀ (i : ℕ) (g : TileState → TileState),
      (∀ t : TileState, (g t).isFixed = true → t.isFixed = true) →
      atMostOneFocused { sys with tiles := updTile i g sys.tiles } := by
    intro i g hg p hp q hq hpf hqf
    simp only [updTile, List.mem_map] at hp hq
    obtain ⟨p0, hp0, hpe⟩ := hp
    obtain ⟨q0, hq0, hqe⟩ := hq
    have hp1 : p.1 = p0.1 ∧ p0.2.isFixed = true := by
      by_cases hc : p0.1 == i
      · rw [← hpe, if_pos hc]
        rw [← hpe, if_pos hc] at hpf
        exact ⟨rfl, hg _ hpf⟩
      · rw [← hpe, if_neg hc]
        rw [← hpe, if_neg hc] at hpf
        exact ⟨rfl, hpf⟩
    have hq1 : q.1 = q0.1 ∧ q0.2.isFixed = true := by
      by_cases hc : q0.1 == i
      · rw [← hqe, if_pos hc]
        rw [← hqe, if_pos hc] at hqf
        exact ⟨rfl, hg _ hqf⟩
      · rw [← hqe, if_neg hc]
        rw [← hqe, if_neg hc] at hqf
        exact ⟨rfl, hqf⟩
    rw [hp1.1, hq1.1]
    exact h p0 hp0 q0 hq0 hp1.2 hq1.2
  cases e with
  | pointerDown i =>
    simp only [focusStep]
    split
    · exact h
    · exact hupd i _ (by intro t ht; simpa using ht)
  | pointerMove i b5 =>
    simp only [focusStep]
    split
    · exact h
    · apply hupd
      intro t ht
      by_cases hc : t.isPointerDown && b5
      · simpa [hc] using ht
      · simpa [hc] using ht
  | pointerUp i =>
    simp only [focusStep]
    split
    · exact h
    · exact hupd i _ (by intro t ht; simpa using ht)
  | clickTile i =>
    simp only [focusStep]
    split
    · exact h
    · next hov =>
      have hnone : ∀ p ∈ sys.tiles, p.2.isFixed = false := by
        intro p hp
        by_contra hcon
        simp only [Bool.not_eq_false] at hcon
        exact hov (by simp only [overlayActive, List.any_eq_true]; exact ⟨p, hp, hcon⟩)
      have hall : ∀ (extra : Option ℕ),
          atMostOneFocused { sys with tiles := updTile i handleClick sys.tiles,
                                      clickedItemId := extra } := by
        intro extra p hp q hq hpf hqf
        simp only [updTile, List.mem_map] at hp hq
        obtain ⟨p0, hp0, hpe⟩ := hp
        obtain ⟨q0, hq0, hqe⟩ := hq
        have hp1 : p.1 = i := by
          by_cases hc : p0.1 == i
          · rw [← hpe, if_pos hc]
            show p0.1 = i
            exact beq_iff_eq.mp hc
          · rw [← hpe, if_neg hc] at hpf
            exact absurd hpf (by simp [hnone p0 hp0])
        have hq1 : q.1 = i := by
          by_cases hc : q0.1 == i
          · rw [← hqe, if_pos hc]
            show q0.1 = i
            exact beq_iff_eq.mp hc
          · rw [← hqe, if_neg hc] at hqf
            exact absurd hqf (by simp [hnone q0 hq0])
        rw [hp1, hq1]
      split
      · exact h
      · split
        · exact hall sys.clickedItemId
        · exact hall (some i)
  | overlayClick =>
    apply hfix
    intro t ht
    unfold handleOverlayClick at ht
    by_cases hg : sys.gridStopped <;> simpa [hg] using ht
  | closeTimer i =>
    simp only [focusStep]
    split
    · exact h
    · split
      · intro p hp q hq hpf hqf
        exact hupd i closeTimerFire (by
          intro u hu
          unfold closeTimerFire at hu
          by_cases hc : u.closeArmed <;> simpa [hc] using hu) p hp q hq hpf hqf
      · exact h
  | gridStop b =>
    simp only [focusStep]
    split
    · intro p hp q hq hpf hqf
      simp only [List.mem_map] at hp hq
      obtain ⟨p0, hp0, hpe⟩ := hp
      obtain ⟨q0, hq0, hqe⟩ := hq
      have hp1 : p.1 = p0.1 ∧ p0.2.isFixed = true := by
        rw [← hpe]
        rw [← hpe] at hpf
        refine ⟨rfl, ?_⟩
        have : (pendingCloseEffect p0.2).isFixed = p0.2.isFixed := by
          unfold pendingCloseEffect
          by_cases hc : p0.2.pendingClose <;> simp [hc]
        simpa [this] using hpf
      have hq1 : q.1 = q0.1 ∧ q0.2.isFixed = true := by
        rw [← hqe]
        rw [← hqe] at hqf
        refine ⟨rfl, ?_⟩
        have : (pendingCloseEffect q0.2).isFixed = q0.2.isFixed := by
          unfold pendingCloseEffect
          by_cases hc : q0.2.pendingClose <;> simp [hc]
        simpa [this] using hqf
      rw [hp1.1, hq1.1]
      exact h p0 hp0 q0 hq0 hp1.2 hq1.2
    · exact h

end Porto

namespace Porto

theorem focusRun_atMostOne (evts : List FocusEvent) :
    ∀ sys : FocusSys, atMostOneFocused sys → atMostOneFocused (focusRun evts sys) := by
  induction evts with
  | nil => intro sys h; exact h
  | cons e rest ih =>
    intro sys h
    exact ih _ (focusStep_atMostOne e sys h)

theorem initFocusSys_atMostOne (ids : List ℕ) : atMostOneFocused (initFocusSys ids) := by
  intro p hp q hq hpf hqf
  simp only [initFocusSys, List.mem_map] at hp
  obtain ⟨i, -, rfl⟩ := hp
  exact absurd hpf (by simp [idleTile])

/-- A system with tile 0 open (fixed) and tile 1 idle. -/
def openSys : FocusSys :=
  ⟨[(0, ⟨true, true, false, false, false, false⟩), (1, idleTile)], some 0, false⟩

end Porto

/-- C9: (1) from the all-idle initial state, any trace of pointer, click,
overlay, timer and grid-stop events leaves at most one tile in the
opening/open/closing (`isFixed`) phases; (2) while a tile is active its
full-screen overlay intercepts the pointer, so a click or pointer-down
aimed at any tile — the active one or a second one — changes nothing;
(3) `handleClick` itself never re-enters `opening` on a non-idle tile: it
keeps `isFixed` and leaves the animation/close flags untouched. -/
theorem Porto.C9_focus_single_tile :
    (∀ (ids : List ℕ) (evts : List Porto.FocusEvent),
      Porto.atMostOneFocused (Porto.focusRun evts (Porto.initFocusSys ids))) ∧
    (∀ sys : Porto.FocusSys, Porto.overlayActive sys = true → ∀ i : ℕ,
      Porto.focusStep (Porto.FocusEvent.clickTile i) sys = sys ∧
      Porto.focusStep (Porto.FocusEvent.pointerDown i) sys = sys) ∧
    (∀ t : Porto.TileState, t.isFixed = true →
      (Porto.handleClick t).isFixed = true ∧
      (Porto.handleClick t).isAnimating = t.isAnimating ∧
      (Porto.handleClick t).pendingClose = t.pendingClose ∧
      (Porto.handleClick t).closeArmed = t.closeArmed) := by
  refine ⟨?_, ?_, ?_⟩
  · intro ids evts
    exact Porto.focusRun_atMostOne evts _ (Porto.initFocusSys_atMostOne ids)
  · intro sys h i
    constructor <;> simp [Porto.focusStep, h]
  · intro t ht
    unfold Porto.handleClick
    by_cases h1 : t.hasMoved <;> by_cases h2 : t.isPointerDown <;>
      simp [h1, h2, ht]

/-- C9 witness: with tile 0 open, a click aimed at the idle tile 1 is a
no-op on the whole system. -/
theorem Porto.C9_focus_single_tile_witness :
    Porto.focusStep (Porto.FocusEvent.clickTile 1) Porto.openSys = Porto.openSys :=
  (Porto.C9_focus_single_tile.2.1 Porto.openSys (by decide) 1).1

namespace Porto

/-! ### `GridVideoContent`: the thumbnail→video upgrade, modelled on a 1ms
tick clock. A React effect with dependencies `[gridStopped, showVideo,
isDragging]` keeps its `setTimeout` pending exactly while the arming
condition holds (any dependency change runs the cleanup, cancelling it,
and the condition `gridStopped && !showVideo && !isDragging` pins all
three dependencies, so the timeout survives only while the condition is
continuously true). -/

structure VideoState where
  showVideo : Bool
  hideImage : Bool
  upgradeTimer : Option ℕ
  hideTimer : Option ℕ
deriving DecidableEq

/-- The 500ms upgrade delay of the first effect. -/
def upgradeDelay : ℕ := 500

/-- The 200ms thumbnail-hide delay of the second effect. -/
def hideImageDelay : ℕ := 200

/-- Initial component state: thumbnail only. -/
def initVideoState : VideoState := ⟨false, false, none, none⟩

/-- The first effect plus timer countdown for one tick: while
`gridStopped && !showVideo && !isDragging`, keep the upgrade timeout
running (arming a fresh 500ms one when none is pending) and fire it when
it expires, setting `showVideo`; otherwise cancel any pending timeout. -/
def upgradeEffect (gridStopped isDragging : Bool) (v : VideoState) : VideoState :=
  if gridStopped && !v.showVideo && !isDragging then
    match v.upgradeTimer with
    | none => { v with upgradeTimer := some upgradeDelay }
    | some 0 => { v with upgradeTimer := none }
    | some 1 => { v with showVideo := true, upgradeTimer := none }
    | some (Nat.succ (Nat.succ k)) => { v with upgradeTimer := some (Nat.succ k) }
  else { v with upgradeTimer := none }

/-- The second effect plus countdown: once the video shows and the image
is still mounted, run the 200ms hide timeout. -/
def hideImageEffect (v : VideoState) : VideoState :=
  if v.showVideo && !v.hideImage then
    match v.hideTimer with
    | none => { v with hideTimer := some hideImageDelay }
    | some 0 => { v with hideTimer := none }
    | some 1 => { v with hideImage := true, hideTimer := none }
    | some (Nat.succ (Nat.succ k)) => { v with hideTimer := some (Nat.succ k) }
  else { v with hideTimer := none }

/-- One millisecond of component life under the current context values. -/
def videoTick (gridStopped isDragging : Bool) (v : VideoState) : VideoState :=
  hideImageEffect (upgradeEffect gridStopped isDragging v)

/-- The component's state after `n` ticks under the context trace `inp`
(per tick: gridStopped, isDragging). -/
def videoRun (inp : ℕ → Bool × Bool) : ℕ → VideoState
  | 0 => initVideoState
  | Nat.succ n => videoTick (inp n).1 (inp n).2 (videoRun inp n)

theorem hideImageEffect_showVideo (v : VideoState) :
    (hideImageEffect v).showVideo = v.showVideo := by
  unfold hideImageEffect
  repeat' split
  all_goals rfl

theorem hideImageEffect_upgradeTimer (v : VideoState) :
    (hideImageEffect v).upgradeTimer = v.upgradeTimer := by
  unfold hideImageEffect
  repeat' split
  all_goals rfl

theorem upgradeEffect_cancel (gs dr : Bool) (v : VideoState)
    (h : (gs && !v.showVideo && !dr) = false) :
    upgradeEffect gs dr v = { v with upgradeTimer := none } := by
  unfold upgradeEffect
  rw [h]
  simp

theorem upgradeEffect_showVideo_mono (gs dr : Bool) (v : VideoState)
    (h : v.showVideo = true) : (upgradeEffect gs dr v).showVideo = true := by
  unfold upgradeEffect
  have : (gs && !v.showVideo && !dr) = false := by simp [h]
  rw [this]
  simpa using h

theorem videoTick_showVideo_mono (gs dr : Bool) (v : VideoState)
    (h : v.showVideo = true) : (videoTick gs dr v).showVideo = true := by
  unfold videoTick
  rw [hideImageEffect_showVideo]
  exact upgradeEffect_showVideo_mono gs dr v h

theorem upgradeEffect_fire (gs dr : Bool) (v : VideoState)
    (h : v.showVideo = false) (hf : (upgradeEffect gs dr v).showVideo = true) :
    (gs && !v.showVideo && !dr) = true ∧ v.upgradeTimer = some 1 := by
  unfold upgradeEffect at hf
  by_cases hc : (gs && !v.showVideo && !dr) = true
  · refine ⟨hc, ?_⟩
    rw [hc] at hf
    simp only [if_true] at hf
    cases ht : v.upgradeTimer with
    | none => rw [ht] at hf; simp at hf; exact absurd hf (by rw [h]; simp)
    | some k =>
      rw [ht] at hf
      match k with
      | 0 => simp at hf; exact absurd hf (by rw [h]; simp)
      | 1 => rfl
      | Nat.succ (Nat.succ m) => simp at hf; exact absurd hf (by rw [h]; simp)
  · have hc' : (gs && !v.showVideo && !dr) = false := by
      cases hb : (gs && !v.showVideo && !dr)
      · rfl
      · exact absurd hb hc
    rw [hc'] at hf
    simp at hf
    exact absurd hf (by rw [h]; simp)

end Porto

namespace Porto

theorem videoRun_succ_upgradeTimer (inp : ℕ → Bool × Bool) (n : ℕ) :
    (videoRun inp (n + 1)).upgradeTimer =
      (upgradeEffect (inp n).1 (inp n).2 (videoRun inp n)).upgradeTimer := by
  show (videoTick (inp n).1 (inp n).2 (videoRun inp n)).upgradeTimer = _
  unfold videoTick
  rw [hideImageEffect_upgradeTimer]

theorem videoRun_succ_showVideo (inp : ℕ → Bool × Bool) (n : ℕ) :
    (videoRun inp (n + 1)).showVideo =
      (upgradeEffect (inp n).1 (inp n).2 (videoRun inp n)).showVideo := by
  show (videoTick (inp n).1 (inp n).2 (videoRun inp n)).showVideo = _
  unfold videoTick
  rw [hideImageEffect_showVideo]

theorem upgradeTimer_window (inp : ℕ → Bool × Bool) :
    ∀ n k, (videoRun inp n).upgradeTimer = some k →
      1 ≤ k ∧ k ≤ upgradeDelay ∧ upgradeDelay + 1 - k ≤ n ∧
      ∀ j, j < n → n ≤ j + (upgradeDelay + 1 - k) →
        (inp j).1 = true ∧ (inp j).2 = false ∧ (videoRun inp j).showVideo = false := by
  intro n
  induction n with
  | zero =>
    intro k h
    exact absurd h (by simp [videoRun, initVideoState])
  | succ n ih =>
    intro k h
    rw [videoRun_succ_upgradeTimer] at h
    by_cases hc : ((inp n).1 && !(videoRun inp n).showVideo && !(inp n).2) = true
    · obtain ⟨⟨hgs, hsv⟩, hdr⟩ :
          ((inp n).1 = true ∧ (!(videoRun inp n).showVideo) = true) ∧
            (!(inp n).2) = true := by
        constructor
        · exact ⟨by revert hc; cases (inp n).1 <;> simp,
                 by revert hc; cases (videoRun inp n).showVideo <;> simp⟩
        · revert hc
          cases (inp n).2 <;> simp
      rw [Bool.not_eq_true'] at hsv hdr
      unfold upgradeEffect at h
      rw [hc] at h
      simp only [if_true] at h
      have hu : upgradeDelay = 500 := rfl
      cases ht : (videoRun inp n).upgradeTimer with
      | none =>
        rw [ht] at h
        simp only [Option.some.injEq] at h
        subst h
        refine ⟨by rw [hu]; omega, le_refl _, by omega, ?_⟩
        intro j hj1 hj2
        have hj : j = n := by
          rw [hu] at hj2
          omega
        rw [hj]
        exact ⟨hgs, hdr, hsv⟩
      | some m =>
        rw [ht] at h
        rcases m with _ | _ | m
        · simp at h
        · simp at h
        · simp only [Option.some.injEq] at h
          subst h
          obtain ⟨ih1, ih2, ih3, ih4⟩ := ih (m + 2) ht
          rw [hu] at ih2 ih3 ⊢
          refine ⟨by omega, by omega, by omega, ?_⟩
          intro j hj1 hj2
          rcases Nat.lt_succ_iff_lt_or_eq.mp hj1 with hj | hj
          · exact ih4 j hj (by omega)
          · rw [hj]
            exact ⟨hgs, hdr, hsv⟩
    · have hc' : ((inp n).1 && !(videoRun inp n).showVideo && !(inp n).2) = false := by
        cases hb : ((inp n).1 && !(videoRun inp n).showVideo && !(inp n).2)
        · rfl
        · exact absurd hb hc
      rw [upgradeEffect_cancel _ _ _ hc'] at h
      simp at h

end Porto

/-- C10: along any context trace (per-millisecond values of `gridStopped`
and `isDragging`): (1) once `showVideo` is set the tile never reverts to
thumbnail-only; (2) the swap to the video happens at tick n+1 only when
the arming condition — grid stopped and not dragging — has held
continuously over the whole 500ms window [n−500, n] (with the tile still
un-upgraded throughout); (3) whenever the condition fails at a tick
(dragging resumed or the grid moves again), the pending upgrade timeout is
cancelled and the thumbnail state is unchanged. -/
theorem Porto.C10_video_upgrade_delay (inp : ℕ → Bool × Bool) :
    (∀ n m : ℕ, n ≤ m → (Porto.videoRun inp n).showVideo = true →
      (Porto.videoRun inp m).showVideo = true) ∧
    (∀ n : ℕ, (Porto.videoRun inp n).showVideo = false →
      (Porto.videoRun inp (n + 1)).showVideo = true →
      500 ≤ n ∧ ∀ j : ℕ, n - 500 ≤ j → j ≤ n → (inp j).1 = true ∧ (inp j).2 = false) ∧
    (∀ n : ℕ, ((inp n).2 = true ∨ (inp n).1 = false) →
      (Porto.videoRun inp (n + 1)).upgradeTimer = none ∧
      (Porto.videoRun inp (n + 1)).showVideo = (Porto.videoRun inp n).showVideo) := by
  refine ⟨?_, ?_, ?_⟩
  · intro n m hnm hn
    induction m, hnm using Nat.le_induction with
    | base => exact hn
    | succ m hm ih =>
      show (Porto.videoTick (inp m).1 (inp m).2 (Porto.videoRun inp m)).showVideo = true
      exact Porto.videoTick_showVideo_mono _ _ _ ih
  · intro n h0 h1
    rw [Porto.videoRun_succ_showVideo] at h1
    obtain ⟨hc, ht⟩ := Porto.upgradeEffect_fire (inp n).1 (inp n).2 (Porto.videoRun inp n) h0 h1
    obtain ⟨-, -, h3, h4⟩ := Porto.upgradeTimer_window inp n 1 ht
    have hu : Porto.upgradeDelay = 500 := rfl
    rw [hu] at h3 h4
    have hn : 500 ≤ n := by omega
    refine ⟨hn, ?_⟩
    intro j hj1 hj2
    rcases Nat.lt_or_ge j n with hj | hj
    · obtain ⟨a, b, -⟩ := h4 j hj (by omega)
      exact ⟨a, b⟩
    · have : j = n := by omega
      rw [this]
      constructor
      · revert hc
        cases (inp n).1 <;> simp
      · revert hc
        cases (inp n).2 <;> cases (inp n).1 <;> simp
  · intro n hfail
    have hc : ((inp n).1 && !(Porto.videoRun inp n).showVideo && !(inp n).2) = false := by
      rcases hfail with hd | hg
      · rw [hd]
        simp
      · rw [hg]
        simp
    constructor
    · rw [Porto.videoRun_succ_upgradeTimer,
        Porto.upgradeEffect_cancel _ _ _ hc]
    · rw [Porto.videoRun_succ_showVideo,
        Porto.upgradeEffect_cancel _ _ _ hc]

/-- C10 witness: if the user is dragging at tick 0, after that tick no
upgrade timeout is pending and the thumbnail state is unchanged. -/
theorem Porto.C10_video_upgrade_delay_witness :
    (Porto.videoRun (fun _ => (true, true)) 1).upgradeTimer = none ∧
    (Porto.videoRun (fun _ => (true, true)) 1).showVideo =
      (Porto.videoRun (fun _ => (true, true)) 0).showVideo :=
  (Porto.C10_video_upgrade_delay (fun _ => (true, true))).2.2 0 (Or.inl rfl)
